import Mathlib

/-! opencv-tutorials: a shallow embedding of the application logic.

The six demonstration programs sequence calls into a vision library.  The
definitions below translate the code the programs themselves contribute:
the match filter and corner mapper of `homographyPerspective.cpp`, the
serialization round trip of `fileIo.cpp`, the channel demultiplexer of
`videoWrite.cpp` and the command-line entry points of all six programs.

Conventions of the embedding.

* `float`/`double` values are exact rationals (`ℚ`).  In `goodMatches` this
  loses nothing for finite inputs: a `float` distance converts to `double`
  exactly, and `3 * minDist` of a 24-bit significand is exact in `double`, so
  each comparison of the source is a comparison of the exact values.
  NaN and infinities are outside the model.
* `std::vector` is `List`; a counting `for` loop over a vector is a fold.
* Library calls whose result the program cannot determine (decoding an image,
  opening a stream, matching descriptors, fitting a homography) are fields of
  an environment record passed to the entry point.
* An entry point returns how the process ends together with the trace of its
  observable effects.
-/

/-! ## Shared vocabulary of the entry points -/

/-- A point with `float` coordinates (`cv::Point2f`). -/
structure Point2f where
  x : ℚ
  y : ℚ
  deriving DecidableEq, Repr

/-- Componentwise sum, the `+=` of `cv::Point2f`. -/
def Point2f.add (p q : Point2f) : Point2f := ⟨p.x + q.x, p.y + q.y⟩

instance : Add Point2f := ⟨Point2f.add⟩

/-- Observable effects of a program run, in the order they happen. -/
inductive Effect where
  /-- The usage message of the program called as `av0` was printed. -/
  | usage (av0 : String)
  /-- Some other text was printed on the console. -/
  | print (text : String)
  /-- A file was opened for reading (image, video or storage). -/
  | readFile (path : String)
  /-- A file was opened for writing (video or storage or image). -/
  | writeFile (path : String)
  /-- A window of that title showed an image. -/
  | window (title : String)
  /-- A line segment was drawn (`cv::line`). -/
  | line (p q : Point2f)
  /-- A window was moved to a screen position (`cv::moveWindow`). -/
  | moveWindow (title : String) (x y : Int)
  /-- The program waited for a key (`cv::waitKey`). -/
  | waitKey
  deriving DecidableEq, Repr

/-- How a process ends: `return code` from `main`, or abnormal termination
(failed `assert`, uncaught library exception). -/
inductive Outcome where
  | exit (code : Int)
  | abort (what : String)
  deriving DecidableEq, Repr

/-- Whether an effect opens a file. -/
def Effect.touchesFile : Effect → Bool
  | .readFile _ => true
  | .writeFile _ => true
  | _ => false

/-- The argument count `ac` seen by `main`: the program name `av[0]`, which a
hosted environment always passes, plus the arguments `av[1..]`. -/
def argc (args : List String) : Int := (args.length : Int) + 1

/-- The argument `av[i]` for `i ≥ 1` (the empty string when absent; the
programs only index below `ac`). -/
def argv (args : List String) (i : Nat) : String := args.getD (i - 1) ""

/-! ## homographyPerspective.cpp -/

namespace HomographyPerspective

/-- A match of a goal feature to a scene feature (`cv::DMatch`). -/
structure DMatch where
  queryIdx : Int
  trainIdx : Int
  imgIdx : Int
  distance : ℚ
  deriving DecidableEq, Repr

/-- `typedef std::vector<cv::DMatch> Matches`. -/
abbrev Matches := List DMatch

/-- One iteration of the first loop of `goodMatches`, on the pair
`(minDist, maxDist)`. -/
def minMaxStep (acc : ℚ × ℚ) (m : DMatch) : ℚ × ℚ :=
  let dist := m.distance
  let minDist := if dist < acc.1 then dist else acc.1
  let maxDist := if dist > acc.2 then dist else acc.2
  (minDist, maxDist)

/-- The first loop of `goodMatches`: `(minDist, maxDist)` as printed, starting
from `minDist = 100.0, maxDist = 0.0`. -/
def minMaxDist (matchList : Matches) : ℚ × ℚ :=
  matchList.foldl minMaxStep (100, 0)

/-- One iteration of the second loop of `goodMatches`: `push_back` when the
distance is below the threshold. -/
def pushIfGood (threshold : ℚ) (result : Matches) (m : DMatch) : Matches :=
  if m.distance < threshold then result ++ [m] else result

/-- `goodMatches` of the source: both loops. -/
def goodMatches (matchList : Matches) : Matches :=
  let minDist := (minMaxDist matchList).1
  let threshold := 3 * minDist
  matchList.foldl (pushIfGood threshold) []

/-- The minimum distance over all matches, in the words of the contract:
defined for a non-empty sequence only. -/
def specMinDistance : Matches → Option ℚ
  | [] => none
  | m :: rest => some (rest.foldl (fun least k => min least k.distance) m.distance)

/-- The match filter in the words of the contract: keep the matches whose
distance is strictly less than three times the minimum distance. -/
def goodMatchesSpec (matchList : Matches) : Matches :=
  match specMinDistance matchList with
  | none => []
  | some least => matchList.filter (fun m => decide (m.distance < 3 * least))

/-- A 3x3 projective transform, row by row. -/
structure Homography where
  m00 : ℚ
  m01 : ℚ
  m02 : ℚ
  m10 : ℚ
  m11 : ℚ
  m12 : ℚ
  m20 : ℚ
  m21 : ℚ
  m22 : ℚ
  deriving DecidableEq, Repr

/-- The identity transform. -/
def Homography.identity : Homography := ⟨1, 0, 0, 0, 1, 0, 0, 0, 1⟩

/-- Library collaborator `cv::perspectiveTransform` on one point, from its
documentation: `(x, y) ↦ (x'/w, y'/w)` with `(x', y', w) = M (x, y, 1)`, and
the zero point when `w = 0`. -/
def projectPoint (m : Homography) (p : Point2f) : Point2f :=
  let w := m.m20 * p.x + m.m21 * p.y + m.m22
  if w = 0 then ⟨0, 0⟩
  else ⟨(m.m00 * p.x + m.m01 * p.y + m.m02) / w, (m.m10 * p.x + m.m11 * p.y + m.m12) / w⟩

/-- Library collaborator `cv::perspectiveTransform`: the destination has one
point per source point. -/
def perspectiveTransform (src : List Point2f) (m : Homography) : List Point2f :=
  src.map (projectPoint m)

/-- `findCorners` of the source, after its call of `findHomography`: `x` and
`y` are the width and height of the goal image, `homography` the matrix the
library returned. -/
def findCorners (x y : Int) (homography : Homography) : List Point2f :=
  let corners : List Point2f := [⟨0, 0⟩, ⟨x, 0⟩, ⟨x, y⟩, ⟨0, y⟩]
  let result := perspectiveTransform corners homography
  let offset : Point2f := ⟨x, 0⟩
  result.map (fun r => r + offset)

end HomographyPerspective

/-! ## fileIo.cpp -/

namespace FileIo

/-- Library macro `CV_PI` (the literal of the library header). -/
def CV_PI : ℚ := 3.1415926535897932384626433832795

/-- `struct SomeData`. -/
structure SomeData where
  anInt : Int
  aDouble : ℚ
  aString : String
  deriving DecidableEq, Repr

/-- The constructor `SomeData()`. -/
def SomeData.ctor : SomeData := ⟨1, 1.1, "default SomeData ctor"⟩

/-- The constructor `SomeData(int)`, which ignores its argument. -/
def SomeData.ctorInt (_ : Int) : SomeData := ⟨97, CV_PI, "mydata1234"⟩

/-- A node of a storage file (`cv::FileNode`): missing, a scalar, a sequence of
nodes or a map from names to nodes. -/
inductive FileNode where
  | none
  | int (i : Int)
  | real (f : ℚ)
  | str (s : String)
  | seq (items : List FileNode)
  | map (entries : List (String × FileNode))

/-- The first entry of that name in a map, the missing node when there is
none. -/
def lookup : List (String × FileNode) → String → FileNode
  | [], _ => .none
  | (name, node) :: rest, key => if name = key then node else lookup rest key

/-- `FileNode::empty()`: the node is missing. -/
def FileNode.empty : FileNode → Bool
  | .none => true
  | _ => false

/-- `FileNode::isInt()`. -/
def FileNode.isInt : FileNode → Bool
  | .int _ => true
  | _ => false

/-- `FileNode::isSeq()`. -/
def FileNode.isSeq : FileNode → Bool
  | .seq _ => true
  | _ => false

/-- `FileNode::isMap()`. -/
def FileNode.isMap : FileNode → Bool
  | .map _ => true
  | _ => false

/-- `FileNode::operator[](const char *)`: the entry of a map; the missing node
on a missing node or an empty sequence; a library error on any other node. -/
def FileNode.get : FileNode → String → Except String FileNode
  | .map entries, key => .ok (lookup entries key)
  | .none, _ => .ok .none
  | .seq [], _ => .ok .none
  | _, _ => .error "The node is neither a map nor an empty collection"

/-- Library rounding `cvRound`: to the nearest integer, ties to even. -/
def cvRound (f : ℚ) : Int :=
  let lower := ⌊f⌋
  let frac := f - lower
  if frac < 1 / 2 then lower
  else if 1 / 2 < frac then lower + 1
  else if lower % 2 = 0 then lower else lower + 1

/-- `FileNode::operator int()`: 0 for a missing node, the value of an integer
node, the rounded value of a real node, `INT_MAX` otherwise. -/
def FileNode.toInt : FileNode → Int
  | .none => 0
  | .int i => i
  | .real f => cvRound f
  | _ => 0x7fffffff

/-- `FileNode::operator double()`: 0 for a missing node, the value of a number
node, `1e300` otherwise. -/
def FileNode.toDouble : FileNode → ℚ
  | .none => 0
  | .int i => i
  | .real f => f
  | _ => 1e300

/-- `FileNode::operator std::string()`: the value of a string node, the empty
string otherwise. -/
def FileNode.toStr : FileNode → String
  | .str s => s
  | _ => ""

/-- `SomeData::write`: the map `{ anInt, aDouble, aString }` streamed to the
storage.  The three values are written as an integer, a real and a string
node. -/
def SomeData.write (x : SomeData) : FileNode :=
  .map [("anInt", .int x.anInt), ("aDouble", .real x.aDouble), ("aString", .str x.aString)]

/-- `SomeData::read`: the three fields converted from the entries of
`node`. -/
def SomeData.read (node : FileNode) : Except String SomeData := do
  let anInt := (← node.get "anInt").toInt
  let aDouble := (← node.get "aDouble").toDouble
  let aString := (← node.get "aString").toStr
  pure ⟨anInt, aDouble, aString⟩

/-- The free function `write(fs, name, x)`: the node stored for `x`. -/
def write (x : SomeData) : FileNode := x.write

/-- The free function `read(node, x, default_value)`: the new value of `x`. -/
def read (node : FileNode) (_x : SomeData) (default_value : SomeData := SomeData.ctor) :
    Except String SomeData :=
  if node.empty then .ok default_value else SomeData.read node

/-- A dense matrix as the storage holds it: dimensions, element type tag and
the elements row by row. -/
structure Mat where
  rows : Int
  cols : Int
  dt : String
  data : List ℚ
  deriving DecidableEq, Repr

/-- `cv::Mat_<uchar>::eye(3, 3)`. -/
def ucharEye : Mat := ⟨3, 3, "u", [1, 0, 0, 0, 1, 0, 0, 0, 1]⟩

/-- `cv::Mat_<double>::zeros(3, 1)`. -/
def doubleZeros : Mat := ⟨3, 1, "d", [0, 0, 0]⟩

/-- Library `write` of a matrix: a map of its dimensions, type tag and data. -/
def Mat.write (m : Mat) : FileNode :=
  .map [("rows", .int m.rows), ("cols", .int m.cols), ("dt", .str m.dt),
        ("data", .seq (m.data.map FileNode.real))]

/-- The elements of a sequence or map node in order, as
`FileNodeIterator` visits them, each with its name (empty in a sequence). -/
def FileNode.elements : FileNode → List (String × FileNode)
  | .seq items => items.map (fun n => ("", n))
  | .map entries => entries
  | _ => []

/-- Library `read` of a matrix: the inverse of `Mat.write` on a map node.  The
programs read matrices from nodes written by `Mat.write` or from a missing
node, which gives the empty matrix; other nodes are given the empty matrix
here too. -/
def Mat.read (node : FileNode) : Mat :=
  match node with
  | .map entries =>
    ⟨(lookup entries "rows").toInt, (lookup entries "cols").toInt, (lookup entries "dt").toStr,
     (lookup entries "data").elements.map (fun e => e.2.toDouble)⟩
  | _ => ⟨0, 0, "", []⟩

/-- The top-level map of a storage file. -/
abbrev Storage := List (String × FileNode)

/-- The files a run can see: the parsed content of each storage file that can
be opened for reading, and whether a path can be opened for writing. -/
structure Disk where
  files : String → Option Storage
  writable : String → Bool

/-- A `cv::FileStorage` object: whether it is open, and its top-level map. -/
structure FileStorage where
  isOpened : Bool
  root : Storage

/-- `FileStorage fs(filename, WRITE)`. -/
def FileStorage.openWrite (disk : Disk) (filename : String) : FileStorage :=
  ⟨disk.writable filename, []⟩

/-- `FileStorage fs(filename, READ)`. -/
def FileStorage.openRead (disk : Disk) (filename : String) : FileStorage :=
  match disk.files filename with
  | some root => ⟨true, root⟩
  | none => ⟨false, []⟩

/-- `fs << name << value`: a new entry of the top-level map; nothing on a
storage that is not open. -/
def FileStorage.put (fs : FileStorage) (name : String) (value : FileNode) : FileStorage :=
  if fs.isOpened then { fs with root := fs.root ++ [(name, value)] } else fs

/-- `fs[name]`: the entry of the top-level map, missing when absent or when the
storage is not open. -/
def FileStorage.get (fs : FileStorage) (name : String) : FileNode :=
  if fs.isOpened then lookup fs.root name else .none

/-- `fs.release()` of a storage opened for writing on `filename`. -/
def FileStorage.release (fs : FileStorage) (disk : Disk) (filename : String) : Disk :=
  if fs.isOpened then
    { disk with files := fun p => if p = filename then some fs.root else disk.files p }
  else disk

/-- What the reading functions print on the console. -/
inductive Printed where
  | someInteger (v : Int)
  | stringSequence (items : List String)
  | stringToIntMap (entries : List (String × Int))
  | ucharEye (m : Mat)
  | doubleZeros (m : Mat)
  | someData (d : SomeData)
  | noThing (d : SomeData)
  | failure (text : String)
  deriving DecidableEq, Repr

/-- `writeSomeStuff`: the six entries streamed to the storage, which is then
released.  Returns `true` whether or not the storage opened. -/
def writeSomeStuff (disk : Disk) (filename : String) : Bool × Disk :=
  let someData := SomeData.ctorInt 1
  let fs := FileStorage.openWrite disk filename
  let fs := fs.put "someInteger" (.int 100)
  let fs := fs.put "stringSequence" (.seq [.str "image.jpg", .str "wild", .str "lena.jpg"])
  let fs := fs.put "stringToIntMap" (.map [("One", .int 1), ("Two", .int 2)])
  let fs := fs.put "ucharEye" ucharEye.write
  let fs := fs.put "doubleZeros" doubleZeros.write
  let fs := fs.put "someData" (write someData)
  (true, fs.release disk filename)

/-- `readMatAndSomeData`: the two matrices and `someData`, then `someData`
again from the key "no thing".  An error of the library ends the run. -/
def readMatAndSomeData (fs : FileStorage) : Except String (Bool × List Printed) := do
  let ucharEye := Mat.read (fs.get "ucharEye")
  let doubleZeros := Mat.read (fs.get "doubleZeros")
  let someData := SomeData.ctor
  let someData ← read (fs.get "someData") someData
  let shown := [Printed.ucharEye ucharEye, .doubleZeros doubleZeros, .someData someData]
  let someData ← read (fs.get "no thing") someData
  pure (true, shown ++ [.noThing someData])

/-- `readSomeInteger`. -/
def readSomeInteger (fs : FileStorage) : Bool × List Printed :=
  let fnSomeInteger := fs.get "someInteger"
  if fnSomeInteger.isInt then
    let someInteger := fnSomeInteger.toInt
    (true, [.someInteger someInteger])
  else (false, [.failure "someInteger is not an integer"])

/-- The loop of `readStringSequence`: the strings printed so far, and whether
the end was reached without meeting an element that is not a string. -/
def readStrings : List (String × FileNode) → List String × Bool
  | [] => ([], true)
  | (_, .str s) :: rest => let r := readStrings rest; (s :: r.1, r.2)
  | _ :: _ => ([], false)

/-- `readStringSequence`. -/
def readStringSequence (fs : FileStorage) : Bool × List Printed :=
  let fnStringSequence := fs.get "stringSequence"
  if fnStringSequence.isSeq then
    let r := readStrings fnStringSequence.elements
    if r.2 then (true, [.stringSequence r.1])
    else (false, [.stringSequence r.1, .failure "stringSequence element is not a string!"])
  else (false, [.failure "stringSequence is not a sequence!"])

/-- The loop of `readStringToIntMap`: every element reached through a map is
named, so each is printed with its name and its value as an integer. -/
def readNamedInts (elements : List (String × FileNode)) : List (String × Int) :=
  elements.map (fun e => (e.1, e.2.toInt))

/-- `readStringToIntMap`. -/
def readStringToIntMap (fs : FileStorage) : Bool × List Printed :=
  let fnStringToIntMap := fs.get "stringToIntMap"
  if fnStringToIntMap.isMap then
    (true, [.stringToIntMap (readNamedInts fnStringToIntMap.elements)])
  else (false, [.failure "stringToIntMap is not a map!"])

/-- `readSomeStuff`: the four readers in turn, stopping at the first that
fails (`&&`). -/
def readSomeStuff (disk : Disk) (filename : String) : Except String (Bool × List Printed) := do
  let fs := FileStorage.openRead disk filename
  let ok := fs.isOpened
  let out : List Printed := if ok then [] else [.failure ("Failed to open " ++ filename)]
  if !ok then return (false, out)
  let r := readSomeInteger fs
  let out := out ++ r.2
  if !r.1 then return (false, out)
  let r := readStringSequence fs
  let out := out ++ r.2
  if !r.1 then return (false, out)
  let r := readStringToIntMap fs
  let out := out ++ r.2
  if !r.1 then return (false, out)
  let r ← readMatAndSomeData fs
  return (r.1, out ++ r.2)

/-- The result of a run of `fileIo`. -/
structure Run where
  outcome : Outcome
  trace : List Effect
  printed : List Printed
  disk : Disk

/-- `main` of `fileIo.cpp`. -/
def main (disk : Disk) (av0 : String) (args : List String) : Run :=
  if argc args = 2 then
    let filename := argv args 1
    let w := writeSomeStuff disk filename
    let trace := [Effect.writeFile filename]
    if w.1 then
      match readSomeStuff w.2 filename with
      | .error what => ⟨.abort what, trace ++ [.readFile filename], [], w.2⟩
      | .ok r =>
        let trace := trace ++ [.readFile filename]
        if r.1 then ⟨.exit 0, trace ++ [.print "Tip"], r.2, w.2⟩
        else ⟨.exit 1, trace ++ [.usage av0], r.2, w.2⟩
    else ⟨.exit 1, trace ++ [.usage av0], [], w.2⟩
  else ⟨.exit 1, [.usage av0], [], disk⟩

end FileIo

/-! ## videoWrite.cpp -/

namespace VideoWrite

/-- The colors of `enum { BLUE, GREEN, RED, COUNT }` in `main`. -/
def BLUE : Nat := 0

/-- Second enumerator. -/
def GREEN : Nat := 1

/-- Third enumerator. -/
def RED : Nat := 2

/-- Fourth enumerator: the number of colors. -/
def COUNT : Nat := 3

/-- An image (`cv::Mat` of 8-bit samples): its size and one plane of samples
per channel, in channel order. -/
structure Mat where
  rows : Nat
  cols : Nat
  channels : List (List Nat)
  deriving DecidableEq, Repr

/-- `cv::Mat::empty()`: there is no sample.  A matrix that holds data has at
least one channel. -/
def Mat.empty (m : Mat) : Bool :=
  m.rows == 0 || m.cols == 0 || m.channels.isEmpty

/-- `cv::Size`. -/
structure Size where
  width : Int
  height : Int
  deriving DecidableEq, Repr

/-- Library `cv::split`: one single-channel matrix per channel. -/
def split (m : Mat) : List Mat :=
  m.channels.map (fun plane => ⟨m.rows, m.cols, [plane]⟩)

/-- Library `cv::Mat::zeros` of one channel. -/
def zeros (rows cols : Nat) : Mat :=
  ⟨rows, cols, [List.replicate (rows * cols) 0]⟩

/-- Library `cv::merge`: the channels of the matrices in order, with the size
of the first. -/
def merge : List Mat → Mat
  | [] => ⟨0, 0, []⟩
  | c :: rest => ⟨c.rows, c.cols, ((c :: rest).map (fun k => k.channels)).flatten⟩

/-- The loop `for (i...) if (i != color) channel[i] = black;` from index `i`
on. -/
def blackenOthers (color : Nat) (black : Mat) : Nat → List Mat → List Mat
  | _, [] => []
  | i, c :: rest =>
    (if i ≠ color then black else c) :: blackenOthers color black (i + 1) rest

/-- The body of the loop over `color` in `main`: the frame written to
`out[color]`.  `channel[0]` exists because the frame is not empty. -/
def outFrame (inFrame : Mat) (color : Nat) : Mat :=
  let channel := split inFrame
  match channel with
  | [] => merge channel
  | c0 :: _ =>
    let black := zeros c0.rows c0.cols
    merge (blackenOthers color black 0 channel)

/-- The statement `out[color] << frame` on the array of the frames written so
far by each writer. -/
def appendAt : List (List Mat) → Nat → Mat → List (List Mat)
  | [], _, _ => []
  | w :: rest, 0, frame => (w ++ [frame]) :: rest
  | w :: rest, color + 1, frame => w :: appendAt rest color frame

/-- The loop `for (int color = BLUE; color < COUNT; ++color)` on one frame. -/
def writeColors (inFrame : Mat) (out : List (List Mat)) : List (List Mat) :=
  (List.range COUNT).foldl (fun o color => appendAt o color (outFrame inFrame color)) out

/-- The loop `while (ok)` over the frames the input delivers; it ends at the
end of the stream or at the first empty frame. -/
def writeFrames : List Mat → List (List Mat) → List (List Mat)
  | [], out => out
  | inFrame :: rest, out =>
    if inFrame.empty then out else writeFrames rest (writeColors inFrame out)

/-- The `static` variables of `makeWindow`. -/
structure Layout where
  across : Int
  count : Int
  moveX : Int
  moveY : Int
  maxY : Int
  deriving DecidableEq, Repr

/-- The initial values of the `static` variables: `across = 1`, the others
zero. -/
def Layout.init : Layout := ⟨1, 0, 0, 0, 0⟩

/-- `makeWindow`: the new values of the `static` variables and the window
created and moved.  The test `count % across == 0` asks whether `across`
divides `count`, which does not depend on the rounding of `%`; `across` is
never 0, as it starts at 1 and is only set to a non-zero `reset`. -/
def makeWindow (st : Layout) (window : String) (size : Size) (reset : Int := 0) :
    Layout × List Effect :=
  let st : Layout := if reset ≠ 0 then ⟨reset, 0, 0, 0, 0⟩ else st
  let st : Layout :=
    if st.count % st.across = 0 then
      { st with moveY := st.moveY + st.maxY + 23, maxY := 0, moveX := 0 }
    else st
  let st : Layout := { st with count := st.count + 1 }
  let shown := [Effect.window window, .moveWindow window st.moveX st.moveY]
  ({ st with moveX := st.moveX + size.width, maxY := max st.maxY size.height }, shown)

/-- What the library decides in a run of `videoWrite`. -/
structure Env where
  /-- Whether `CvVideoCapture input(path)` is open. -/
  captureOpens : String → Bool
  /-- The frames that capture delivers, in order. -/
  frames : String → List Mat
  /-- Whether `out[i].open(path, ...)` leaves the writer open. -/
  writerOpens : String → Bool
  /-- Whether `video[i].vc.open(path)` for the playback succeeds. -/
  playbackOpens : String → Bool
  /-- The frame size of a playback capture. -/
  playbackSize : String → Size
  /-- The frames a playback capture delivers. -/
  playbackFrames : String → List Mat
  /-- For each round of the display loop, whether a key was pressed during
  `cv::waitKey`. -/
  keys : List Bool

/-- The loop that opens the playback captures: it stops at the first that
fails. -/
def openPlayback (env : Env) : List String → Bool × List Effect
  | [] => (true, [])
  | path :: rest =>
    if env.playbackOpens path then
      let r := openPlayback env rest
      (r.1, .readFile path :: r.2)
    else (false, [.readFile path])

/-- The loop that lays out the windows: `makeWindow(name, size, i == 0? 2: 0)`
for each video from index `i` on. -/
def makeWindows (st : Layout) (i : Nat) : List (String × Size) → Layout × List Effect
  | [] => (st, [])
  | (name, size) :: rest =>
    let r := makeWindow st name size (if i = 0 then 2 else 0)
    let r2 := makeWindows r.1 (i + 1) rest
    (r2.1, r.2 ++ r2.2)

/-- One round of the display loop over the videos after the first: each shows
its next frame until one has none. -/
def showRest : List (String × List Mat) → Bool × List Effect
  | [] => (true, [])
  | (_, []) :: _ => (false, [])
  | (name, frame :: _) :: rest =>
    if frame.empty then (false, [])
    else
      let r := showRest rest
      (r.1, .window name :: r.2)

/-- The display loop `while (ok)`: the first argument holds the frames left in
the first video, `others` the other videos. -/
def playback (name0 : String) : List Mat → List (String × List Mat) → List Bool → List Effect
  | [], _, _ => []
  | frame :: more, others, keys =>
    if frame.empty then []
    else
      let r := showRest others
      if r.1 then
        [.window name0] ++ r.2 ++ [.waitKey] ++
          (if keys.headD false then []
           else playback name0 more (others.map (fun v => (v.1, v.2.tail))) keys.tail)
      else [.window name0] ++ r.2

/-- The result of a run of `videoWrite`: for each writer `out[0..2]` the path it
was opened on and the frames written to it. -/
structure Run where
  outcome : Outcome
  trace : List Effect
  out : List (String × List Mat)

/-- The part of `main` after the frames are written (`if (ok) { ... return 0; }`):
the playback captures are opened, and when all are open the windows are laid
out and the display loop runs. -/
def playAll (env : Env) (args : List String) : List Effect :=
  let names := ["Source", "Blue", "Green", "Red"]
  let paths := (List.range 4).map (fun i => argv args (1 + i))
  let opened := openPlayback env paths
  if opened.1 then
    let windows := makeWindows Layout.init 0 (names.zip (paths.map env.playbackSize))
    match names.zip (paths.map env.playbackFrames) with
    | [] => opened.2 ++ windows.2
    | (name0, frames0) :: others =>
      opened.2 ++ windows.2 ++ playback name0 frames0 others env.keys
  else opened.2

/-- `main` of `videoWrite.cpp`. -/
def main (env : Env) (av0 : String) (args : List String) : Run :=
  if argc args = 5 then
    let input := argv args 1
    if env.captureOpens input then
      let outPaths := (List.range COUNT).map (fun i => argv args (i + 2))
      let trace := Effect.readFile input :: outPaths.map Effect.writeFile
      if outPaths.all env.writerOpens then
        let out := writeFrames (env.frames input) (outPaths.map (fun _ => []))
        let trace := trace ++ [.print "Press any key to quit."] ++ playAll env args
        ⟨.exit 0, trace, outPaths.zip out⟩
      else ⟨.exit 1, trace ++ [.usage av0], outPaths.map (fun p => (p, []))⟩
    else ⟨.exit 1, [.readFile input, .usage av0], []⟩
  else ⟨.exit 1, [.usage av0], []⟩

end VideoWrite

/-! ## edgeDetect.cpp -/

namespace EdgeDetect

/-- The size of a decoded image; the library filters keep it. -/
structure Image where
  rows : Int
  cols : Int
  deriving DecidableEq, Repr

/-- `makeWindow`: windows are laid out 3 across; `moveCount` is the `static`
counter, returned incremented. -/
def makeWindow (moveCount : Int) (window : String) (image : Image) : Int × List Effect :=
  let across : Int := 3
  let moveX := (moveCount % across) * image.cols
  let moveY := (moveCount / across) * (50 + image.rows)
  (moveCount + 1, [.window window, .moveWindow window moveX moveY])

/-- `showOriginalBlurGray`: three windows. -/
def showOriginalBlurGray (moveCount : Int) (src : Image) : Int × List Effect :=
  let w1 := makeWindow moveCount "Original" src
  let w2 := makeWindow w1.1 "Original Blur" src
  let w3 := makeWindow w2.1 "Original Blurred Grayscale" src
  (w3.1, w1.2 ++ w2.2 ++ w3.2)

/-- `showSobel`. -/
def showSobel (moveCount : Int) (src : Image) : Int × List Effect :=
  makeWindow moveCount "Sobel Derivative" src

/-- `showScharr`. -/
def showScharr (moveCount : Int) (src : Image) : Int × List Effect :=
  makeWindow moveCount "Scharr Derivative" src

/-- `showSobelScharr`. -/
def showSobelScharr (moveCount : Int) (src : Image) : Int × List Effect :=
  makeWindow moveCount "Sobel(CV_SCHARR) Derivative" src

/-- `main` of `edgeDetect.cpp`; `imread` is the library decoder, `none` when
`image.data` is null. -/
def main (imread : String → Option Image) (av0 : String) (args : List String) :
    Outcome × List Effect :=
  if argc args = 2 then
    match imread (argv args 1) with
    | some image =>
      let w1 := showOriginalBlurGray 0 image
      let w2 := showSobel w1.1 image
      let w3 := showScharr w2.1 image
      let w4 := showSobelScharr w3.1 image
      (.exit 0, [.readFile (argv args 1)] ++ w1.2 ++ w2.2 ++ w3.2 ++ w4.2 ++ [.waitKey])
    | none => (.exit 1, [.readFile (argv args 1), .usage av0])
  else (.exit 1, [.usage av0])

end EdgeDetect

/-! ## laplace.cpp -/

namespace Laplace

/-- The size of a decoded image; the library filters keep it. -/
structure Image where
  rows : Int
  cols : Int
  deriving DecidableEq, Repr

/-- `makeWindow`: windows are laid out 2 across; `moveCount` is the `static`
counter, returned incremented. -/
def makeWindow (moveCount : Int) (window : String) (image : Image) : Int × List Effect :=
  let across : Int := 2
  let moveX := (moveCount % across) * image.cols
  let moveY := (moveCount / across) * (50 + image.rows)
  (moveCount + 1, [.window window, .moveWindow window moveX moveY])

/-- `showOriginalBlurGray`: three windows. -/
def showOriginalBlurGray (moveCount : Int) (src : Image) : Int × List Effect :=
  let w1 := makeWindow moveCount "Original" src
  let w2 := makeWindow w1.1 "Original Blur" src
  let w3 := makeWindow w2.1 "Original Blurred Grayscale" src
  (w3.1, w1.2 ++ w2.2 ++ w3.2)

/-- `showLaplacian`. -/
def showLaplacian (moveCount : Int) (src : Image) : Int × List Effect :=
  makeWindow moveCount "Laplacian" src

/-- `main` of `laplace.cpp`; `imread` is the library decoder, `none` when
`image.data` is null. -/
def main (imread : String → Option Image) (av0 : String) (args : List String) :
    Outcome × List Effect :=
  if argc args = 2 then
    match imread (argv args 1) with
    | some image =>
      let w1 := showOriginalBlurGray 0 image
      let w2 := showLaplacian w1.1 image
      (.exit 0, [.readFile (argv args 1)] ++ w1.2 ++ w2.2 ++ [.waitKey])
    | none => (.exit 1, [.readFile (argv args 1), .usage av0])
  else (.exit 1, [.usage av0])

end Laplace

/-! ## homographyPerspective.cpp: the entry point -/

namespace HomographyPerspective

/-- The size of a decoded image. -/
structure Image where
  width : Int
  height : Int
  deriving DecidableEq, Repr

/-- What the library decides in a run of `homographyPerspective`. -/
structure Env where
  /-- The decoder `cv::imread`, `none` when `image.data` is null. -/
  imread : String → Option Image
  /-- The matches `matchFeatures` returns for the goal and the scene. -/
  matchFeatures : Image → Image → Matches
  /-- The matrix `cv::findHomography` returns for the locations of the good
  matches, `none` when the library raises an error. -/
  findHomography : Image → Image → Matches → Option Homography

/-- The four `cv::line` calls of `main` on the vector `corner`: each index is
looked up, and a missing element ends the run. -/
def outline (corner : List Point2f) : Option (List Effect) := do
  let c0 ← corner[0]?
  let c1 ← corner[1]?
  let c2 ← corner[2]?
  let c3 ← corner[3]?
  pure [.line c0 c1, .line c1 c2, .line c2 c3, .line c3 c0]

/-- `main` of `homographyPerspective.cpp`. -/
def main (env : Env) (av0 : String) (args : List String) : Outcome × List Effect :=
  if argc args = 3 then
    let trace := [Effect.readFile (argv args 1), .readFile (argv args 2)]
    match env.imread (argv args 1), env.imread (argv args 2) with
    | some goal, some scene =>
      let trace := trace ++ [.print "Press any key to quit."]
      let matchList := env.matchFeatures goal scene
      let good := goodMatches matchList
      match env.findHomography goal scene good with
      | none => (.abort "cv::findHomography", trace)
      | some homography =>
        let corner := findCorners goal.width goal.height homography
        match outline corner with
        | none => (.abort "corner index out of range", trace)
        | some lines =>
          (.exit 0, trace ++ lines ++ [.window "Good Matches & Object detection", .waitKey])
    | _, _ => (.exit 1, trace ++ [.usage av0])
  else (.exit 1, [.usage av0])

end HomographyPerspective

/-! ## svmNonlinear.cpp: the entry point -/

namespace SvmNonlinear

/-- What the library decides in a run of `svmNonlinear`. -/
structure Env where
  /-- The response of `svm.predict` on the sample `(i, j)` after training. -/
  predict : Int → Int → ℚ
  /-- The centers of the support vectors of the trained machine. -/
  supportVectors : List (ℚ × ℚ)

/-- Whether `drawRegions` meets only the responses 1.0 and 2.0 on an image of
that size, so that its assertion does not fail. -/
def responsesExpected (env : Env) (rows cols : Nat) : Bool :=
  (List.range rows).all fun i => (List.range cols).all fun j =>
    env.predict i j == 1 || env.predict i j == 2

/-- `main` of `svmNonlinear.cpp`: it has no parameter names and reads neither
`ac` nor `av`; control reaches the end of `main`, which returns 0. -/
def main (env : Env) (_av0 : String) (_args : List String) : Outcome × List Effect :=
  let trace := [Effect.print "Training SVM ... ", .print "done."]
  if responsesExpected env 512 512 then
    (.exit 0, trace
      ++ [.print "support vector count"] ++ env.supportVectors.map (fun _ => .print "center")
      ++ [.writeFile "result.png", .window "SVM for Non-Linear Training Data", .waitKey])
  else (.abort "expected response from SVM", trace ++ [.print "Unexpected response"])

end SvmNonlinear

/-! ## videoWrite.cpp: vocabulary for the written frames -/

namespace VideoWrite

/-- A frame as the library holds it: every channel has one sample per
pixel. -/
def Mat.wellFormed (m : Mat) : Prop :=
  ∀ plane ∈ m.channels, plane.length = m.rows * m.cols

instance (m : Mat) : Decidable m.wellFormed := by
  unfold Mat.wellFormed
  infer_instance

/-- The channel-wise sum of two frames of the same size: sample by sample in
each channel. -/
def Mat.add (m k : Mat) : Mat :=
  ⟨m.rows, m.cols, List.zipWith (fun p q => List.zipWith (fun a b => a + b) p q) m.channels k.channels⟩

end VideoWrite

/-! ## svmNonlinear.cpp: training data and labels -/

namespace SvmNonlinear

/-- `cv::Size` of the image the points are scattered in. -/
structure Size where
  width : Int
  height : Int
  deriving DecidableEq, Repr

/-- Library macro `CV_32FC1`, which `makeData` and `labelData` pass as the
third constructor argument of `cv::Mat_<float>`, the initial value of every
element. -/
def CV_32FC1 : ℚ := 5

/-- `const int SEP = 0.4 * COUNT;` for a row count `COUNT`: the conversion to
`int` drops the fraction.  The `double` product has the integer part of the
exact one: the `double` nearest to 0.4 exceeds it by less than `2^-54`, and
the fraction of `0.4 * COUNT` is 0 or at least 0.2. -/
def sep (COUNT : Nat) : Nat := (⌊(0.4 : ℚ) * COUNT⌋).toNat

/-- The three `rowRange(first, last)` calls of `makeData`: the ranges of `x1`,
`xM` and `x2`, each from `first` up to but not including `last`. -/
def makeDataRanges (COUNT : Nat) : List (Nat × Nat) :=
  let SEP := sep COUNT
  [(0, SEP), (SEP, COUNT - SEP), (COUNT - SEP, COUNT)]

/-- The random number generator `rng`: the value of the `k`-th element it
fills, uniform in `[lo, hi)`. -/
structure Rng where
  draw : Nat → ℚ → ℚ → ℚ

/-- `rng.fill` of one column over a row range, starting with the `k`-th
element filled. -/
def fillRows (rng : Rng) (k : Nat) (range : Nat × Nat) (lo hi : ℚ) : List ℚ :=
  (List.range (range.2 - range.1)).map (fun i => rng.draw (k + i) lo hi)

/-- `makeData`: one row `(x, y)` per point; column 0 is filled range by range,
column 1 in one call. -/
def makeData (rng : Rng) (COUNT : Nat) (size : Size) : List (ℚ × ℚ) :=
  let SEP := sep COUNT
  let cols : ℚ := size.width
  let rows : ℚ := size.height
  let x1 := fillRows rng 0 (0, SEP) (0.0 * cols) (0.4 * cols)
  let xM := fillRows rng SEP (SEP, COUNT - SEP) (0.4 * cols) (0.6 * cols)
  let x2 := fillRows rng (COUNT - SEP) (COUNT - SEP, COUNT) (0.6 * cols) (1.0 * cols)
  let ys := fillRows rng COUNT (0, COUNT) (0.0 * rows) (1.0 * rows)
  (x1 ++ xM ++ x2).zip ys

/-- `m.rowRange(first, last).setTo(value)` on a matrix of one column, for
`first ≤ last ≤ rows` as the library requires. -/
def setRows (m : List ℚ) (first last : Nat) (value : ℚ) : List ℚ :=
  m.take first ++ List.replicate (last - first) value ++ m.drop last

/-- `labelData`: the label of each of the `COUNT` rows. -/
def labelData (COUNT : Nat) : List ℚ :=
  let result := List.replicate COUNT CV_32FC1
  let result := setRows result 0 (COUNT / 2) 1.0
  setRows result (COUNT / 2) COUNT 2.0

end SvmNonlinear

/-! ## videoWrite.cpp: the layout of the windows -/

namespace VideoWrite

/-- The positions the windows were moved to, in the order of the calls of
`cv::moveWindow`. -/
def movedTo : List Effect → List (Int × Int)
  | [] => []
  | .moveWindow _ x y :: rest => (x, y) :: movedTo rest
  | _ :: rest => movedTo rest

/-- A sequence of calls `makeWindow(name, size)`, all with `reset = 0`. -/
def makeWindowCalls (st : Layout) : List (String × Size) → Layout × List Effect
  | [] => (st, [])
  | (name, size) :: rest =>
    let r := makeWindow st name size
    let r2 := makeWindowCalls r.1 rest
    (r2.1, r.2 ++ r2.2)

/-- The positions of the windows of a call `makeWindow(name, size, reset)`
followed by calls with `reset = 0`. -/
def layoutAfterReset (st : Layout) (reset : Int) (first : String × Size)
    (following : List (String × Size)) : List (Int × Int) :=
  let r := makeWindow st first.1 first.2 reset
  movedTo (r.2 ++ (makeWindowCalls r.1 following).2)

/-- In a layout of `n` windows per row, the sum of the widths of the windows
before window `i` in its row. -/
def widthsBefore (n : Nat) (sizes : List Size) (i : Nat) : Int :=
  (((sizes.drop (n * (i / n))).take (i % n)).map Size.width).sum

/-- In a layout of `n` windows per row, the maximum height of row `r` (of
non-negative heights). -/
def rowHeight (n : Nat) (sizes : List Size) (r : Nat) : Int :=
  (((sizes.drop (n * r)).take n).map Size.height).foldl max 0

/-- The vertical position of row `r`: 23 for the first row, and for each new
row that of the previous row plus the maximum height of the previous row plus
23. -/
def rowY (n : Nat) (sizes : List Size) : Nat → Int
  | 0 => 23
  | r + 1 => rowY n sizes r + rowHeight n sizes r + 23

/-- The rectangle `[x, x + width) x [y, y + height)` a window covers. -/
structure Rect where
  x : Int
  y : Int
  width : Int
  height : Int
  deriving DecidableEq, Repr

/-- The rectangles of windows of those sizes at those positions. -/
def rects (positions : List (Int × Int)) (sizes : List Size) : List Rect :=
  List.zipWith (fun p s => ⟨p.1, p.2, s.width, s.height⟩) positions sizes

/-- Two rectangles overlap when some point lies in both. -/
def Rect.overlaps (a b : Rect) : Bool :=
  decide (max a.x b.x < min (a.x + a.width) (b.x + b.width))
    && decide (max a.y b.y < min (a.y + a.height) (b.y + b.height))

end VideoWrite

/-! ## svmNonlinear.cpp: drawing the regions -/

namespace SvmNonlinear

/-- A pixel of three 8-bit channels (`cv::Vec3b`), in the order blue, green,
red. -/
structure Vec3b where
  b : Nat
  g : Nat
  r : Nat
  deriving DecidableEq, Repr

/-- `static const cv::Vec3b green(0, 100, 0)`. -/
def green : Vec3b := ⟨0, 100, 0⟩

/-- `static const cv::Vec3b blue(100, 0, 0)`. -/
def blue : Vec3b := ⟨100, 0, 0⟩

/-- One execution of the assignment `image(row, col) = value`. -/
structure PixelWrite where
  row : Nat
  col : Nat
  value : Vec3b
  deriving DecidableEq, Repr

/-- Whether a pixel access lies within an image of that size. -/
def PixelWrite.inBounds (w : PixelWrite) (rows cols : Nat) : Bool :=
  decide (w.row < rows) && decide (w.col < cols)

/-- The body of the inner loop of `drawRegions` for the loop variables `i` and
`j`: the sample is `(i, j)` and the pixel written is `image(j, i)`; any
response other than 1.0 and 2.0 fails the assertion. -/
def drawPixel (env : Env) (i j : Nat) : Except String PixelWrite :=
  let response := env.predict i j
  if response = 1.0 then .ok ⟨j, i, green⟩
  else if response = 2.0 then .ok ⟨j, i, blue⟩
  else .error "expected response from SVM"

/-- `drawRegions` on an image of `rows` rows and `cols` columns: the pixel
accesses in the order of the two loops (`i` below `image.rows`, `j` below
`image.cols`), or the failed assertion. -/
def drawRegions (env : Env) (rows cols : Nat) : Except String (List PixelWrite) := do
  let perRow ← (List.range rows).mapM
    (fun i => (List.range cols).mapM (fun j => drawPixel env i j))
  pure perRow.flatten

end SvmNonlinear

/-! ## Theorems -/

namespace HomographyPerspective

theorem foldl_pushIfGood (threshold : ℚ) (matchList acc : Matches) :
    matchList.foldl (pushIfGood threshold) acc
      = acc ++ matchList.filter (fun m => decide (m.distance < threshold)) := by
  induction matchList generalizing acc with
  | nil => simp
  | cons m rest ih =>
    by_cases h : m.distance < threshold
    · simp [List.foldl_cons, pushIfGood, h, ih]
    · simp [List.foldl_cons, pushIfGood, h, ih]

/-- The second loop is a filter with the threshold of the first loop. -/
theorem goodMatches_eq_filter (matchList : Matches) :
    goodMatches matchList
      = matchList.filter (fun m => decide (m.distance < 3 * (minMaxDist matchList).1)) := by
  simp [goodMatches, foldl_pushIfGood]

theorem foldl_minMaxStep_fst (matchList : Matches) (lo hi : ℚ) :
    (matchList.foldl minMaxStep (lo, hi)).1
      = matchList.foldl (fun least k => min least k.distance) lo := by
  induction matchList generalizing lo hi with
  | nil => rfl
  | cons m rest ih =>
    simp only [List.foldl_cons, minMaxStep]
    rw [ih]
    congr 1
    by_cases h : m.distance < lo
    · simp [h, min_eq_right (le_of_lt h)]
    · simp [h, min_eq_left (not_lt.mp h)]

theorem foldl_min_distance (matchList : Matches) (c a : ℚ) :
    matchList.foldl (fun least k => min least k.distance) (min c a)
      = min c (matchList.foldl (fun least k => min least k.distance) a) := by
  induction matchList generalizing a with
  | nil => rfl
  | cons m rest ih =>
    simp only [List.foldl_cons]
    rw [min_assoc, ih]

theorem foldl_min_distance_le (matchList : Matches) (a : ℚ) :
    matchList.foldl (fun least k => min least k.distance) a ≤ a
      ∧ ∀ m ∈ matchList, matchList.foldl (fun least k => min least k.distance) a ≤ m.distance := by
  induction matchList generalizing a with
  | nil => simp
  | cons k rest ih =>
    simp only [List.foldl_cons, List.mem_cons, forall_eq_or_imp]
    have h := ih (min a k.distance)
    exact ⟨le_trans h.1 (min_le_left _ _), le_trans h.1 (min_le_right _ _), h.2⟩

/-- The minimum the code computes is the true minimum capped by the initial
value 100. -/
theorem minMaxDist_fst_cons (m : DMatch) (rest : Matches) :
    (minMaxDist (m :: rest)).1
      = min 100 (rest.foldl (fun least k => min least k.distance) m.distance) := by
  unfold minMaxDist
  rw [foldl_minMaxStep_fst, List.foldl_cons, foldl_min_distance]

/-- Below the initial value the code agrees with the contract: when some match
has a distance of at most 100, `goodMatches` keeps exactly the matches whose
distance is less than thrice the minimum distance. -/
theorem goodMatches_eq_spec_of_le_100 (matchList : Matches)
    (h : ∃ m ∈ matchList, m.distance ≤ 100) :
    goodMatches matchList = goodMatchesSpec matchList := by
  cases matchList with
  | nil => simp at h
  | cons k rest =>
    rw [goodMatches_eq_filter, minMaxDist_fst_cons]
    simp only [goodMatchesSpec, specMinDistance]
    obtain ⟨m, hm, hle⟩ := h
    have hall := foldl_min_distance_le rest k.distance
    have hmin : rest.foldl (fun least k => min least k.distance) k.distance ≤ 100 := by
      rcases List.mem_cons.mp hm with rfl | hin
      · exact le_trans hall.1 hle
      · exact le_trans (hall.2 m hin) hle
    rw [min_eq_right hmin]

/-- The example of the contract: distances 1, 2, 3, 10 give minimum 1,
threshold 3 and the matches of distance 1 and 2. -/
theorem goodMatches_example :
    goodMatches [⟨0, 0, 0, 1⟩, ⟨1, 1, 0, 2⟩, ⟨2, 2, 0, 3⟩, ⟨3, 3, 0, 10⟩]
      = [⟨0, 0, 0, 1⟩, ⟨1, 1, 0, 2⟩]
    ∧ minMaxDist [⟨0, 0, 0, 1⟩, ⟨1, 1, 0, 2⟩, ⟨2, 2, 0, 3⟩, ⟨3, 3, 0, 10⟩] = (1, 10) := by
  constructor
  · rw [goodMatches_eq_filter]
    simp [minMaxDist, minMaxStep, List.filter]
    norm_num
  · simp [minMaxDist, minMaxStep]
    norm_num

/-- C1: at the matches of distance 200 and 500 the code starts its minimum at
100, so it computes minimum 100 and threshold 300 and returns only the match
of distance 200, whereas the minimum over the matches is 200 and both
distances are below thrice it. -/
theorem goodMatches_above_sentinel :
    minMaxDist [⟨0, 0, 0, 200⟩, ⟨1, 1, 0, 500⟩] = (100, 500)
    ∧ goodMatches [⟨0, 0, 0, 200⟩, ⟨1, 1, 0, 500⟩] = [⟨0, 0, 0, 200⟩]
    ∧ specMinDistance [⟨0, 0, 0, 200⟩, ⟨1, 1, 0, 500⟩] = some 200
    ∧ goodMatchesSpec [⟨0, 0, 0, 200⟩, ⟨1, 1, 0, 500⟩]
        = [⟨0, 0, 0, 200⟩, ⟨1, 1, 0, 500⟩] := by
  refine ⟨?_, ?_, ?_, ?_⟩
  · simp [minMaxDist, minMaxStep]
    norm_num
  · rw [goodMatches_eq_filter]
    simp [minMaxDist, minMaxStep, List.filter]
    norm_num
  · simp [specMinDistance]
    norm_num
  · simp [goodMatchesSpec, specMinDistance, List.filter]
    norm_num

/-- C2: the result of `goodMatches` is a subsequence of its input: the
returned matches are matches of the input, each taken at most once, unaltered
and in the order of the input. -/
theorem goodMatches_sublist (matchList : Matches) :
    List.Sublist (goodMatches matchList) matchList := by
  rw [goodMatches_eq_filter]
  exact List.filter_sublist _

/-- C3: two matches of the same distance 400: the code computes minimum 100
and threshold 300 and returns nothing, whereas 400 is below thrice the
minimum 400 and the whole input should be returned. -/
theorem goodMatches_equal_distances_dropped :
    goodMatches [⟨0, 0, 0, 400⟩, ⟨1, 1, 0, 400⟩] = []
    ∧ goodMatchesSpec [⟨0, 0, 0, 400⟩, ⟨1, 1, 0, 400⟩]
        = [⟨0, 0, 0, 400⟩, ⟨1, 1, 0, 400⟩] := by
  constructor
  · rw [goodMatches_eq_filter]
    simp [minMaxDist, minMaxStep, List.filter]
    norm_num
  · simp [goodMatchesSpec, specMinDistance, List.filter]

/-- Equal distances below 300 are all kept: the part of the all-equal property
the code does satisfy. -/
theorem goodMatches_equal_distances_below_300 (matchList : Matches) (d : ℚ)
    (hpos : 0 < d) (hlt : d < 300) (hall : ∀ m ∈ matchList, m.distance = d) :
    goodMatches matchList = matchList := by
  cases matchList with
  | nil => rfl
  | cons k rest =>
    rw [goodMatches_eq_filter, minMaxDist_fst_cons, List.filter_eq_self]
    intro m hm
    have hk : k.distance = d := hall k (List.mem_cons_self _ _)
    have hfold : rest.foldl (fun least k => min least k.distance) k.distance = d := by
      apply le_antisymm
      · exact le_trans (foldl_min_distance_le rest k.distance).1 (le_of_eq hk)
      · have key : ∀ (l : Matches) (a : ℚ), d ≤ a → (∀ m ∈ l, m.distance = d) →
            d ≤ l.foldl (fun least k => min least k.distance) a := by
          intro l
          induction l with
          | nil => intro a ha _; simpa using ha
          | cons j tl ih =>
            intro a ha hj
            simp only [List.foldl_cons]
            apply ih
            · exact le_min ha (le_of_eq (hj j (List.mem_cons_self _ _)).symm)
            · intro m hm
              exact hj m (List.mem_cons_of_mem _ hm)
        exact key rest k.distance (le_of_eq hk.symm)
          (fun m hm => hall m (List.mem_cons_of_mem _ hm))
    rw [hfold, hall m hm]
    simp only [decide_eq_true_eq]
    rcases le_total 100 d with h | h
    · rw [min_eq_left h]; linarith
    · rw [min_eq_right h]; linarith

/-- C4: on the empty sequence `goodMatches` returns the empty sequence, and the
minimum and maximum it computes and prints are the initial values 100.0 and
0.0; the function is total, so no error is raised. -/
theorem goodMatches_nil :
    goodMatches [] = [] ∧ (minMaxDist []).1 = 100 ∧ (minMaxDist []).2 = 0 := by
  refine ⟨rfl, rfl, rfl⟩

/-- C5: `findCorners` returns exactly four points, the images under the
homography of the corners (0,0), (W,0), (W,H), (0,H) in that order, each plus
the offset (W,0); for the identity homography these are (W,0), (2W,0), (2W,H),
(W,H); so each of the indices 0..3 used in `main` is in bounds and the four
lines of the outline are drawn. -/
theorem findCorners_four_corners (W H : Int) (M : Homography) :
    findCorners W H M
        = [projectPoint M ⟨0, 0⟩ + ⟨W, 0⟩, projectPoint M ⟨W, 0⟩ + ⟨W, 0⟩,
           projectPoint M ⟨W, H⟩ + ⟨W, 0⟩, projectPoint M ⟨0, H⟩ + ⟨W, 0⟩]
    ∧ (findCorners W H M).length = 4
    ∧ (∀ i : Nat, i < 4 → ∃ p, (findCorners W H M)[i]? = some p)
    ∧ (∃ lines, outline (findCorners W H M) = some lines)
    ∧ findCorners W H Homography.identity
        = [⟨W, 0⟩, ⟨2 * W, 0⟩, ⟨2 * W, H⟩, ⟨W, H⟩] := by
  refine ⟨rfl, rfl, ?_, ⟨_, rfl⟩, ?_⟩
  · intro i hi
    have hlen : i < (findCorners W H M).length := hi
    exact ⟨(findCorners W H M)[i], List.getElem?_eq_getElem hlen⟩
  · simp only [findCorners, perspectiveTransform, projectPoint, Homography.identity,
      List.map_cons, List.map_nil]
    have hadd : ∀ p q : Point2f, p + q = ⟨p.x + q.x, p.y + q.y⟩ := fun _ _ => rfl
    simp [hadd]
    ring

end HomographyPerspective

namespace FileIo

theorem openRead_writeSomeStuff (disk : Disk) (filename : String)
    (hw : disk.writable filename = true) :
    FileStorage.openRead (writeSomeStuff disk filename).2 filename
      = ⟨true, [("someInteger", .int 100),
          ("stringSequence", .seq [.str "image.jpg", .str "wild", .str "lena.jpg"]),
          ("stringToIntMap", .map [("One", .int 1), ("Two", .int 2)]),
          ("ucharEye", ucharEye.write), ("doubleZeros", doubleZeros.write),
          ("someData", (SomeData.ctorInt 1).write)]⟩ := by
  simp [writeSomeStuff, FileStorage.openWrite, FileStorage.put, FileStorage.release,
    FileStorage.openRead, hw, write]

theorem readSomeStuff_writeSomeStuff (disk : Disk) (filename : String)
    (hw : disk.writable filename = true) :
    readSomeStuff (writeSomeStuff disk filename).2 filename
      = .ok (true, [.someInteger 100, .stringSequence ["image.jpg", "wild", "lena.jpg"],
           .stringToIntMap [("One", 1), ("Two", 2)], .ucharEye ucharEye,
           .doubleZeros doubleZeros, .someData (SomeData.ctorInt 1), .noThing SomeData.ctor]) := by
  unfold readSomeStuff
  rw [openRead_writeSomeStuff disk filename hw]
  rfl

/-- With two arguments `main` is the write, then the read of the same file. -/
theorem main_two_args (disk : Disk) (av0 filename : String) :
    main disk av0 [filename]
      = match readSomeStuff (writeSomeStuff disk filename).2 filename with
        | .error what => ⟨.abort what, [.writeFile filename, .readFile filename], [],
            (writeSomeStuff disk filename).2⟩
        | .ok r =>
          if r.1 then ⟨.exit 0, [.writeFile filename, .readFile filename, .print "Tip"], r.2,
            (writeSomeStuff disk filename).2⟩
          else ⟨.exit 1, [.writeFile filename, .readFile filename, .usage av0], r.2,
            (writeSomeStuff disk filename).2⟩ := by
  simp [main, argc, argv, writeSomeStuff]

/-- C8: for a writable path `main` returns 0; the file then holds the six
entries written by `writeSomeStuff`, and `readSomeStuff` reads back and prints
under each key the value written: someInteger 100, the three strings in
order, the map One 1, Two 2, the two matrices and someData (97, pi,
"mydata1234"); and for every `x`, `SomeData::read` of the node produced by
`SomeData::write` of `x` is `x`. -/
theorem fileIo_round_trip (disk : Disk) (av0 filename : String)
    (hw : disk.writable filename = true) :
    (main disk av0 [filename]).outcome = .exit 0
    ∧ (main disk av0 [filename]).disk.files filename
        = some [("someInteger", .int 100),
            ("stringSequence", .seq [.str "image.jpg", .str "wild", .str "lena.jpg"]),
            ("stringToIntMap", .map [("One", .int 1), ("Two", .int 2)]),
            ("ucharEye", ucharEye.write), ("doubleZeros", doubleZeros.write),
            ("someData", (SomeData.ctorInt 1).write)]
    ∧ (main disk av0 [filename]).printed
        = [.someInteger 100, .stringSequence ["image.jpg", "wild", "lena.jpg"],
           .stringToIntMap [("One", 1), ("Two", 2)], .ucharEye ucharEye,
           .doubleZeros doubleZeros, .someData ⟨97, CV_PI, "mydata1234"⟩,
           .noThing SomeData.ctor]
    ∧ ∀ x : SomeData, SomeData.read (SomeData.write x) = .ok x := by
  rw [main_two_args, readSomeStuff_writeSomeStuff disk filename hw]
  refine ⟨by simp, ?_, by simp [SomeData.ctorInt], ?_⟩
  · simp [writeSomeStuff, FileStorage.openWrite, FileStorage.put, FileStorage.release, hw, write]
  · intro x
    simp [SomeData.read, SomeData.write, FileNode.get, lookup, FileNode.toInt,
      FileNode.toDouble, FileNode.toStr, bind, Except.bind, pure, Except.pure]

/-- Witness of C8: the path "somedata.xml.gz" on a disk where every path can be
written and no file exists yet. -/
theorem fileIo_round_trip_witness :
    (main ⟨fun _ => none, fun _ => true⟩ "fileIo" ["somedata.xml.gz"]).outcome = .exit 0
    ∧ (main ⟨fun _ => none, fun _ => true⟩ "fileIo" ["somedata.xml.gz"]).printed
        = [.someInteger 100, .stringSequence ["image.jpg", "wild", "lena.jpg"],
           .stringToIntMap [("One", 1), ("Two", 2)], .ucharEye ucharEye,
           .doubleZeros doubleZeros, .someData ⟨97, CV_PI, "mydata1234"⟩,
           .noThing SomeData.ctor] :=
  have h := fileIo_round_trip ⟨fun _ => none, fun _ => true⟩ "fileIo" "somedata.xml.gz" rfl
  ⟨h.1, h.2.2.1⟩

/-- What the free function `read` does: the default on a missing node, the
member `read` on every other node. -/
theorem read_eq (node : FileNode) (x d : SomeData) :
    read node x d = if node.empty then .ok d else SomeData.read node := rfl

/-- On a missing node, as for the key "no thing", `read` yields the default
value; with the default argument that is `SomeData()`. -/
theorem read_missing (x d : SomeData) :
    read .none x d = .ok d ∧ read .none x = .ok ⟨1, 1.1, "default SomeData ctor"⟩ :=
  ⟨rfl, rfl⟩

/-- On a node produced by `SomeData::write`, `read` yields the stored value. -/
theorem read_stored (x y d : SomeData) : read y.write x d = .ok y := by
  simp [read, FileNode.empty, SomeData.read, SomeData.write, FileNode.get, lookup,
    FileNode.toInt, FileNode.toDouble, FileNode.toStr, bind, Except.bind, pure, Except.pure]

/-- C10: on the node of the key "stringToIntMap" (the map One 1, Two 2, not a
serialized SomeData but not missing either) `read` does not yield the default
value: it converts the three missing entries and yields (0, 0, ""). -/
theorem read_of_other_map :
    read (.map [("One", .int 1), ("Two", .int 2)]) SomeData.ctor SomeData.ctor
        = .ok ⟨0, 0, ""⟩
    ∧ read (.map [("One", .int 1), ("Two", .int 2)]) SomeData.ctor SomeData.ctor
        ≠ .ok SomeData.ctor := by
  have h : read (.map [("One", .int 1), ("Two", .int 2)]) SomeData.ctor SomeData.ctor
      = .ok ⟨0, 0, ""⟩ := by
    simp [read, FileNode.empty, SomeData.read, FileNode.get, lookup,
      FileNode.toInt, FileNode.toDouble, FileNode.toStr, bind, Except.bind, pure, Except.pure]
  refine ⟨h, ?_⟩
  rw [h]
  simp [SomeData.ctor]

end FileIo

/-! ### The entry points -/

theorem argc_eq_iff (args : List String) (n : Nat) :
    argc args = (n : Int) + 1 ↔ args.length = n := by
  unfold argc
  omega

namespace VideoWrite

theorem args_of_argc_five (args : List String) (h : argc args = 5) :
    ∃ a b c d, args = [a, b, c, d] := by
  have hlen : args.length = 4 := (argc_eq_iff args 4).mp h
  match args, hlen with
  | [a, b, c, d], _ => exact ⟨a, b, c, d, rfl⟩

/-- With four arguments `main` branches on the input capture and on the three
writers only. -/
theorem main_five_args (env : Env) (av0 a b c d : String) :
    main env av0 [a, b, c, d]
      = if env.captureOpens a then
          if env.writerOpens b && (env.writerOpens c && env.writerOpens d) then
            ⟨.exit 0,
              [.readFile a, .writeFile b, .writeFile c, .writeFile d,
                .print "Press any key to quit."] ++ playAll env [a, b, c, d],
              [b, c, d].zip (writeFrames (env.frames a) [[], [], []])⟩
          else ⟨.exit 1, [.readFile a, .writeFile b, .writeFile c, .writeFile d, .usage av0],
            [(b, []), (c, []), (d, [])]⟩
        else ⟨.exit 1, [.readFile a, .usage av0], []⟩ := by
  simp [main, argc, argv, COUNT, List.range, List.range.loop]

/-- Counterexample to C7: the input capture and the three writers open, the
first playback capture does not; `main` returns 0 and prints no usage
message. -/
theorem videoWrite_playback_failure_exit_zero :
    (main ⟨fun _ => true, fun _ => [], fun _ => true, fun _ => false,
        fun _ => ⟨0, 0⟩, fun _ => [], []⟩ "videoWrite"
        ["in.avi", "red.avi", "green.avi", "blue.avi"]).outcome = .exit 0
    ∧ (main ⟨fun _ => true, fun _ => [], fun _ => true, fun _ => false,
        fun _ => ⟨0, 0⟩, fun _ => [], []⟩ "videoWrite"
        ["in.avi", "red.avi", "green.avi", "blue.avi"]).trace
      = [.readFile "in.avi", .writeFile "red.avi", .writeFile "green.avi",
         .writeFile "blue.avi", .print "Press any key to quit.", .readFile "in.avi"] := by
  rw [main_five_args]
  simp [playAll, openPlayback, argv, List.range, List.range.loop]

/-- C7 (amended): in a run with five arguments, when the input capture or one
of the three channel writers fails to open, `main` returns 1 and the usage
message is the last thing it prints; it returns 0 only when the input capture
and the three writers all opened. -/
theorem videoWrite_exit_status (env : Env) (av0 : String) (args : List String)
    (h : argc args = 5) :
    ((env.captureOpens (argv args 1) = false ∨ env.writerOpens (argv args 2) = false
        ∨ env.writerOpens (argv args 3) = false ∨ env.writerOpens (argv args 4) = false) →
      (main env av0 args).outcome = .exit 1
        ∧ (main env av0 args).trace.getLast? = some (.usage av0))
    ∧ ((main env av0 args).outcome = .exit 0 →
      env.captureOpens (argv args 1) = true ∧ env.writerOpens (argv args 2) = true
        ∧ env.writerOpens (argv args 3) = true ∧ env.writerOpens (argv args 4) = true) := by
  obtain ⟨a, b, c, d, rfl⟩ := args_of_argc_five args h
  rw [main_five_args]
  simp only [argv, List.getD_cons_zero, List.getD_cons_succ, Nat.add_one_sub_one,
    show (2 : Nat) - 1 = 1 from rfl, show (3 : Nat) - 1 = 2 from rfl,
    show (4 : Nat) - 1 = 3 from rfl, show (1 : Nat) - 1 = 0 from rfl]
  cases env.captureOpens a <;> cases env.writerOpens b <;> cases env.writerOpens c <;>
    cases env.writerOpens d <;> simp

/-- Witness of C7: the input capture does not open. -/
theorem videoWrite_exit_status_witness :
    argc ["in.avi", "red.avi", "green.avi", "blue.avi"] = 5
    ∧ (main ⟨fun _ => false, fun _ => [], fun _ => true, fun _ => true,
          fun _ => ⟨0, 0⟩, fun _ => [], []⟩ "videoWrite"
          ["in.avi", "red.avi", "green.avi", "blue.avi"]).outcome = .exit 1
    ∧ (main ⟨fun _ => false, fun _ => [], fun _ => true, fun _ => true,
          fun _ => ⟨0, 0⟩, fun _ => [], []⟩ "videoWrite"
          ["in.avi", "red.avi", "green.avi", "blue.avi"]).trace.getLast?
        = some (.usage "videoWrite") :=
  ⟨rfl, (videoWrite_exit_status ⟨fun _ => false, fun _ => [], fun _ => true,
      fun _ => true, fun _ => ⟨0, 0⟩, fun _ => [], []⟩ "videoWrite"
      ["in.avi", "red.avi", "green.avi", "blue.avi"] rfl).1 (Or.inl rfl)⟩

/-- When the capture and the writers are open `main` returns 0, whatever the
playback captures do. -/
theorem main_exit_zero_of_opened (env : Env) (av0 a b c d : String)
    (ha : env.captureOpens a = true) (hb : env.writerOpens b = true)
    (hc : env.writerOpens c = true) (hd : env.writerOpens d = true) :
    (main env av0 [a, b, c, d]).outcome = .exit 0 := by
  rw [main_five_args]
  simp [ha, hb, hc, hd]

theorem writeColors_three (inFrame : Mat) (o0 o1 o2 : List Mat) :
    writeColors inFrame [o0, o1, o2]
      = [o0 ++ [outFrame inFrame BLUE], o1 ++ [outFrame inFrame GREEN],
         o2 ++ [outFrame inFrame RED]] := by
  simp [writeColors, COUNT, List.range, List.range.loop, appendAt, BLUE, GREEN, RED]

/-- The frame loop sends to `out[color]` the frame `outFrame f color` of every
frame `f` before the end of the stream. -/
theorem writeFrames_three (frames : List Mat) (o0 o1 o2 : List Mat) :
    writeFrames frames [o0, o1, o2]
      = [o0 ++ (frames.takeWhile (fun f => !f.empty)).map (fun f => outFrame f BLUE),
         o1 ++ (frames.takeWhile (fun f => !f.empty)).map (fun f => outFrame f GREEN),
         o2 ++ (frames.takeWhile (fun f => !f.empty)).map (fun f => outFrame f RED)] := by
  induction frames generalizing o0 o1 o2 with
  | nil => simp [writeFrames]
  | cons f rest ih =>
    by_cases hf : f.empty = true
    · simp [writeFrames, hf, List.takeWhile]
    · simp only [writeFrames, hf, Bool.false_eq_true, if_false, writeColors_three, ih]
      simp [List.takeWhile, hf]

/-- The writer opened on the second argument receives the BLUE frames, the one
on the third the GREEN frames and the one on the fourth the RED frames. -/
theorem main_out (env : Env) (av0 a b c d : String)
    (ha : env.captureOpens a = true) (hb : env.writerOpens b = true)
    (hc : env.writerOpens c = true) (hd : env.writerOpens d = true) :
    (main env av0 [a, b, c, d]).out
      = [(b, ((env.frames a).takeWhile (fun f => !f.empty)).map (fun f => outFrame f BLUE)),
         (c, ((env.frames a).takeWhile (fun f => !f.empty)).map (fun f => outFrame f GREEN)),
         (d, ((env.frames a).takeWhile (fun f => !f.empty)).map (fun f => outFrame f RED))] := by
  rw [main_five_args]
  simp [ha, hb, hc, hd, writeFrames_three]

/-- The frame for a color of a three-channel frame keeps that channel and
blackens the other two. -/
theorem outFrame_three (rows cols : Nat) (b g r : List Nat) :
    outFrame ⟨rows, cols, [b, g, r]⟩ BLUE
        = ⟨rows, cols, [b, List.replicate (rows * cols) 0, List.replicate (rows * cols) 0]⟩
    ∧ outFrame ⟨rows, cols, [b, g, r]⟩ GREEN
        = ⟨rows, cols, [List.replicate (rows * cols) 0, g, List.replicate (rows * cols) 0]⟩
    ∧ outFrame ⟨rows, cols, [b, g, r]⟩ RED
        = ⟨rows, cols, [List.replicate (rows * cols) 0, List.replicate (rows * cols) 0, r]⟩ := by
  simp [outFrame, split, zeros, merge, blackenOthers, BLUE, GREEN, RED]

/-- C9: one frame of one pixel with blue 10, green 20, red 30, and the output
files named as in the usage example.  The writer opened on the second
argument (`<r-out>`, "red.avi") receives the frame that keeps the blue
channel, and the writer opened on the fourth (`<b-out>`, "blue.avi") the frame
that keeps the red channel. -/
theorem videoWrite_rout_receives_blue :
    (main ⟨fun _ => true, fun _ => [⟨1, 1, [[10], [20], [30]]⟩], fun _ => true, fun _ => true,
        fun _ => ⟨1, 1⟩, fun _ => [], []⟩ "videoWrite"
        ["in.avi", "red.avi", "green.avi", "blue.avi"]).out
      = [("red.avi", [⟨1, 1, [[10], [0], [0]]⟩]),
         ("green.avi", [⟨1, 1, [[0], [20], [0]]⟩]),
         ("blue.avi", [⟨1, 1, [[0], [0], [30]]⟩])] := by
  rfl

end VideoWrite

namespace SvmNonlinear

/-- The entry point does not depend on its arguments. -/
theorem main_args_irrelevant (env : Env) (av0 av0' : String) (args args' : List String) :
    main env av0 args = main env av0' args' := rfl

/-- Whatever the arguments, `svmNonlinear` neither returns 1 nor prints a usage
message. -/
theorem main_never_usage (env : Env) (av0 : String) (args : List String) :
    (main env av0 args).1 ≠ .exit 1 ∧ ∀ s, Effect.usage s ∉ (main env av0 args).2 := by
  unfold main
  by_cases h : responsesExpected env 512 512 = true
  · simp [h]
  · simp [h]

end SvmNonlinear

/-- Counterexample to C6: `svmNonlinear`, with a machine that answers 1.0
everywhere, run with no argument and run with two arguments: both runs write
"result.png" and return 0, and neither prints a usage message. -/
theorem svmNonlinear_any_argument_count :
    SvmNonlinear.main ⟨fun _ _ => 1, []⟩ "svmNonlinear" []
        = (.exit 0, [.print "Training SVM ... ", .print "done.", .print "support vector count",
            .writeFile "result.png", .window "SVM for Non-Linear Training Data", .waitKey])
    ∧ SvmNonlinear.main ⟨fun _ _ => 1, []⟩ "svmNonlinear" ["one", "two"]
        = (.exit 0, [.print "Training SVM ... ", .print "done.", .print "support vector count",
            .writeFile "result.png", .window "SVM for Non-Linear Training Data", .waitKey]) := by
  constructor <;> simp [SvmNonlinear.main, SvmNonlinear.responsesExpected]

/-- C6 (amended): each of the five programs that check their argument count
(edgeDetect, laplace and fileIo expect 2, homographyPerspective 3, videoWrite
5), run with any other argument count, prints the usage message and returns
1, and that message is its only effect: no file is read or written. -/
theorem wrong_argument_count (av0 : String) (args : List String) :
    (argc args ≠ 2 → ∀ imread, EdgeDetect.main imread av0 args = (.exit 1, [.usage av0]))
    ∧ (argc args ≠ 2 → ∀ imread, Laplace.main imread av0 args = (.exit 1, [.usage av0]))
    ∧ (argc args ≠ 2 → ∀ disk,
        (FileIo.main disk av0 args).outcome = .exit 1
        ∧ (FileIo.main disk av0 args).trace = [.usage av0]
        ∧ (FileIo.main disk av0 args).printed = []
        ∧ (FileIo.main disk av0 args).disk.files = disk.files)
    ∧ (argc args ≠ 3 → ∀ env,
        HomographyPerspective.main env av0 args = (.exit 1, [.usage av0]))
    ∧ (argc args ≠ 5 → ∀ env,
        (VideoWrite.main env av0 args).outcome = .exit 1
        ∧ (VideoWrite.main env av0 args).trace = [.usage av0]
        ∧ (VideoWrite.main env av0 args).out = []) := by
  refine ⟨?_, ?_, ?_, ?_, ?_⟩
  · intro h imread
    simp [EdgeDetect.main, h]
  · intro h imread
    simp [Laplace.main, h]
  · intro h disk
    simp [FileIo.main, h]
  · intro h env
    simp [HomographyPerspective.main, h]
  · intro h env
    simp [VideoWrite.main, h]

/-- Witness of C6: the programs run without any argument (argument count 1);
the only effect of each is the usage message, which opens no file. -/
theorem wrong_argument_count_witness :
    argc [] ≠ 2 ∧ argc [] ≠ 3 ∧ argc [] ≠ 5
    ∧ EdgeDetect.main (fun _ => some ⟨4, 4⟩) "edgeDetect" [] = (.exit 1, [.usage "edgeDetect"])
    ∧ (VideoWrite.main ⟨fun _ => true, fun _ => [], fun _ => true, fun _ => true,
          fun _ => ⟨0, 0⟩, fun _ => [], []⟩ "videoWrite" []).trace = [.usage "videoWrite"]
    ∧ ([Effect.usage "videoWrite"].any Effect.touchesFile) = false :=
  ⟨by decide, by decide, by decide,
    (wrong_argument_count "edgeDetect" []).1 (by decide) _,
    ((wrong_argument_count "videoWrite" []).2.2.2.2 (by decide) _).2.1, rfl⟩

namespace VideoWrite

theorem zipWith_add_zeros_right (p : List Nat) (n : Nat) (h : p.length = n) :
    List.zipWith (fun a b => a + b) p (List.replicate n 0) = p := by
  subst h
  induction p with
  | nil => rfl
  | cons a rest ih => simp [List.replicate_succ, ih]

theorem zipWith_add_zeros_left (p : List Nat) (n : Nat) (h : p.length = n) :
    List.zipWith (fun a b => a + b) (List.replicate n 0) p = p := by
  subst h
  induction p with
  | nil => rfl
  | cons a rest ih => simp [List.replicate_succ, ih]

/-- C11: for a frame with three channels (each with one sample per pixel) the
frame written to `out[c]`, for each colour c of BLUE, GREEN, RED, has the size
and the three channels of the input, its channel c is the channel c of the
input and its two other channels are all zero; and the channel-wise sum of
the three frames written is the input frame. -/
theorem outFrame_channel (rows cols : Nat) (b g r : List Nat)
    (hwf : (Mat.mk rows cols [b, g, r]).wellFormed) :
    writeColors ⟨rows, cols, [b, g, r]⟩ [[], [], []]
        = [[outFrame ⟨rows, cols, [b, g, r]⟩ BLUE], [outFrame ⟨rows, cols, [b, g, r]⟩ GREEN],
           [outFrame ⟨rows, cols, [b, g, r]⟩ RED]]
    ∧ (∀ c, c < COUNT →
        (outFrame ⟨rows, cols, [b, g, r]⟩ c).rows = rows
        ∧ (outFrame ⟨rows, cols, [b, g, r]⟩ c).cols = cols
        ∧ (outFrame ⟨rows, cols, [b, g, r]⟩ c).channels.length = 3
        ∧ (outFrame ⟨rows, cols, [b, g, r]⟩ c).wellFormed
        ∧ (outFrame ⟨rows, cols, [b, g, r]⟩ c).channels[c]? = [b, g, r][c]?
        ∧ ∀ k, k < COUNT → k ≠ c → ∃ plane,
            (outFrame ⟨rows, cols, [b, g, r]⟩ c).channels[k]? = some plane
            ∧ ∀ v ∈ plane, v = 0)
    ∧ ((outFrame ⟨rows, cols, [b, g, r]⟩ BLUE).add (outFrame ⟨rows, cols, [b, g, r]⟩ GREEN)).add
          (outFrame ⟨rows, cols, [b, g, r]⟩ RED)
        = ⟨rows, cols, [b, g, r]⟩ := by
  have hb : b.length = rows * cols := hwf b (by simp)
  have hg : g.length = rows * cols := hwf g (by simp)
  have hr : r.length = rows * cols := hwf r (by simp)
  obtain ⟨h0, h1, h2⟩ := outFrame_three rows cols b g r
  refine ⟨by simpa using writeColors_three _ [] [] [], ?_, ?_⟩
  · intro c hc
    have hcases : c = BLUE ∨ c = GREEN ∨ c = RED := by
      simp only [COUNT, BLUE, GREEN, RED] at *
      omega
    rcases hcases with rfl | rfl | rfl
    · rw [h0]
      refine ⟨rfl, rfl, rfl, ?_, rfl, ?_⟩
      · intro plane hp
        simp at hp
        rcases hp with rfl | rfl | rfl <;> simp [hb]
      · intro k hk hne
        have : k = 1 ∨ k = 2 := by simp only [COUNT, BLUE] at *; omega
        rcases this with rfl | rfl <;> exact ⟨_, rfl, fun v hv => (List.mem_replicate.mp hv).2⟩
    · rw [h1]
      refine ⟨rfl, rfl, rfl, ?_, rfl, ?_⟩
      · intro plane hp
        simp at hp
        rcases hp with rfl | rfl | rfl <;> simp [hg]
      · intro k hk hne
        have : k = 0 ∨ k = 2 := by simp only [COUNT, GREEN] at *; omega
        rcases this with rfl | rfl <;> exact ⟨_, rfl, fun v hv => (List.mem_replicate.mp hv).2⟩
    · rw [h2]
      refine ⟨rfl, rfl, rfl, ?_, rfl, ?_⟩
      · intro plane hp
        simp at hp
        rcases hp with rfl | rfl | rfl <;> simp [hr]
      · intro k hk hne
        have : k = 0 ∨ k = 1 := by simp only [COUNT, RED] at *; omega
        rcases this with rfl | rfl <;> exact ⟨_, rfl, fun v hv => (List.mem_replicate.mp hv).2⟩
  · rw [h0, h1, h2]
    have hz : List.zipWith (fun a b => a + b) (List.replicate (rows * cols) 0)
        (List.replicate (rows * cols) 0) = List.replicate (rows * cols) 0 :=
      zipWith_add_zeros_right _ _ (List.length_replicate _ _)
    simp only [Mat.add, List.zipWith_cons_cons, List.zipWith_nil_right, hz,
      zipWith_add_zeros_right b _ hb, zipWith_add_zeros_left g _ hg,
      zipWith_add_zeros_right g _ hg, zipWith_add_zeros_left r _ hr]

/-- Witness of C11: a frame of one row and two pixels. -/
theorem outFrame_channel_witness :
    (Mat.mk 1 2 [[1, 2], [3, 4], [5, 6]]).wellFormed
    ∧ ((outFrame ⟨1, 2, [[1, 2], [3, 4], [5, 6]]⟩ BLUE).add
          (outFrame ⟨1, 2, [[1, 2], [3, 4], [5, 6]]⟩ GREEN)).add
          (outFrame ⟨1, 2, [[1, 2], [3, 4], [5, 6]]⟩ RED)
        = ⟨1, 2, [[1, 2], [3, 4], [5, 6]]⟩ :=
  ⟨by decide, (outFrame_channel 1 2 [1, 2] [3, 4] [5, 6] (by decide)).2.2⟩

end VideoWrite

namespace SvmNonlinear

/-- The integer part of `0.4 * COUNT` is `2 * COUNT / 5`. -/
theorem sep_eq (COUNT : Nat) : sep COUNT = 2 * COUNT / 5 := by
  have h := Nat.div_add_mod (2 * COUNT) 5
  have hr := Nat.mod_lt (2 * COUNT) (by norm_num : 5 > 0)
  generalize 2 * COUNT / 5 = q at h ⊢
  generalize 2 * COUNT % 5 = r at h hr
  have hfloor : ⌊(0.4 : ℚ) * COUNT⌋ = (q : ℤ) := by
    rw [Int.floor_eq_iff]
    have hq : (2 : ℚ) * COUNT = 5 * (q : ℚ) + (r : ℚ) := by exact_mod_cast h.symm
    have hr' : (r : ℚ) < 5 := by exact_mod_cast hr
    have hr0 : (0 : ℚ) ≤ (r : ℚ) := by positivity
    have h04 : (0.4 : ℚ) = 2 / 5 := by norm_num
    rw [h04, Int.cast_natCast]
    constructor <;> linarith
  unfold sep
  rw [hfloor]
  simp

theorem labelData_eq (COUNT : Nat) :
    labelData COUNT = List.replicate (COUNT / 2) 1 ++ List.replicate (COUNT - COUNT / 2) 2 := by
  have h : COUNT / 2 ≤ COUNT := Nat.div_le_self _ _
  simp [labelData, setRows, List.take_replicate, List.drop_replicate, Nat.min_eq_left h]
  rw [List.drop_eq_nil_of_le (by simp; omega)]
  norm_num

/-- The label of row `i`: 1.0 below `COUNT / 2`, 2.0 from there on. -/
theorem labelData_getElem (COUNT i : Nat) (hi : i < COUNT) :
    (labelData COUNT)[i]? = some (if i < COUNT / 2 then 1 else 2) := by
  rw [labelData_eq]
  by_cases h : i < COUNT / 2
  · rw [List.getElem?_append_left (by simpa using h)]
    simp [h]
  · rw [List.getElem?_append_right (by simpa using h)]
    simp only [List.length_replicate, if_neg h]
    rw [List.getElem?_replicate]
    have : i - COUNT / 2 < COUNT - COUNT / 2 := by omega
    simp [this]

theorem labelData_count (COUNT : Nat) :
    (labelData COUNT).length = COUNT
    ∧ (labelData COUNT).count 1 = COUNT / 2
    ∧ (labelData COUNT).count 2 = COUNT - COUNT / 2 := by
  rw [labelData_eq]
  have h : COUNT / 2 ≤ COUNT := Nat.div_le_self _ _
  have h12 : ¬ ((1 : ℚ) = 2) := by norm_num
  have h21 : ¬ ((2 : ℚ) = 1) := by norm_num
  refine ⟨by simp; omega, ?_, ?_⟩
  · simp [List.count_append, List.count_replicate, h21]
  · simp [List.count_append, List.count_replicate, h12]

theorem makeData_length (rng : Rng) (COUNT : Nat) (size : Size) :
    (makeData rng COUNT size).length = COUNT := by
  have hs := sep_eq COUNT
  simp only [makeData, fillRows, List.length_zip, List.length_append, List.length_map,
    List.length_range]
  omega

/-- Counterexample to C12: with COUNT = 3 the ranges are single rows, the one
row of the mixed range is labeled 2.0, and one row is labeled 1.0 against two
labeled 2.0. -/
theorem labelData_three :
    makeDataRanges 3 = [(0, 1), (1, 2), (2, 3)]
    ∧ labelData 3 = [1, 2, 2]
    ∧ (labelData 3).count 1 = 1 ∧ (labelData 3).count 2 = 2 := by
  have hl : labelData 3 = [1, 2, 2] := by
    rw [labelData_eq]
    rfl
  refine ⟨by simp [makeDataRanges, sep_eq], hl, (labelData_count 3).2.1, (labelData_count 3).2.2⟩

/-- C12 (amended): with SEP the integer part of 0.4 * COUNT, the three row
ranges of `makeData` are well-formed and every row below COUNT lies in exactly
one of them; `makeData` and `labelData` yield COUNT rows; every row of the
first range is labeled 1.0 and every row of the last 2.0; in the mixed range
the first (COUNT - 2 * SEP) / 2 rows (rounded down) are labeled 1.0 and the
others 2.0; so COUNT / 2 rows (rounded down) are labeled 1.0 and the other
COUNT - COUNT / 2 rows 2.0, which is half each when COUNT is even. -/
theorem labelData_ranges (rng : Rng) (size : Size) (COUNT : Nat) :
    makeDataRanges COUNT
        = [(0, sep COUNT), (sep COUNT, COUNT - sep COUNT), (COUNT - sep COUNT, COUNT)]
    ∧ sep COUNT ≤ COUNT - sep COUNT ∧ COUNT - sep COUNT ≤ COUNT
    ∧ (∀ i, i < COUNT →
        ((makeDataRanges COUNT).filter (fun r => decide (r.1 ≤ i ∧ i < r.2))).length = 1)
    ∧ (makeData rng COUNT size).length = COUNT
    ∧ (labelData COUNT).length = COUNT
    ∧ (∀ i, i < sep COUNT → (labelData COUNT)[i]? = some 1)
    ∧ (∀ i, COUNT - sep COUNT ≤ i → i < COUNT → (labelData COUNT)[i]? = some 2)
    ∧ (∀ i, sep COUNT ≤ i → i < COUNT - sep COUNT →
        (labelData COUNT)[i]?
          = some (if i < sep COUNT + (COUNT - sep COUNT - sep COUNT) / 2 then 1 else 2))
    ∧ (labelData COUNT).count 1 = COUNT / 2
    ∧ (labelData COUNT).count 2 = COUNT - COUNT / 2
    ∧ (COUNT % 2 = 0 → (labelData COUNT).count 1 = (labelData COUNT).count 2) := by
  have hs := sep_eq COUNT
  obtain ⟨hlen, hc1, hc2⟩ := labelData_count COUNT
  refine ⟨rfl, by omega, by omega, ?_, makeData_length rng COUNT size, hlen, ?_, ?_, ?_,
    hc1, hc2, ?_⟩
  · intro i hi
    simp only [makeDataRanges, List.filter_cons, List.filter_nil]
    by_cases h1 : i < sep COUNT
    · have h2 : ¬ (sep COUNT ≤ i ∧ i < COUNT - sep COUNT) := by omega
      have h3 : ¬ (COUNT - sep COUNT ≤ i ∧ i < COUNT) := by omega
      simp [h1, h2, h3]
      try omega
    · by_cases h2 : i < COUNT - sep COUNT
      · have h3 : ¬ (COUNT - sep COUNT ≤ i ∧ i < COUNT) := by omega
        have h2' : sep COUNT ≤ i ∧ i < COUNT - sep COUNT := ⟨by omega, h2⟩
        simp [h1, h2', h3]
        try omega
      · have h2' : ¬ (sep COUNT ≤ i ∧ i < COUNT - sep COUNT) := by omega
        have h3 : COUNT - sep COUNT ≤ i ∧ i < COUNT := ⟨by omega, hi⟩
        simp [h1, h2', h3]
        try omega
  · intro i hi
    rw [labelData_getElem COUNT i (by omega), if_pos (by omega)]
  · intro i hlo hi
    rw [labelData_getElem COUNT i hi, if_neg (by omega)]
  · intro i hlo hi
    rw [labelData_getElem COUNT i (by omega)]
    have hmid : sep COUNT + (COUNT - sep COUNT - sep COUNT) / 2 = COUNT / 2 := by omega
    rw [hmid]
  · intro heven
    rw [hc1, hc2]
    omega

/-- Witness of C12: the 200 points of `main`: SEP is 80 and 100 rows carry each
label. -/
theorem labelData_ranges_witness :
    makeDataRanges 200 = [(0, sep 200), (sep 200, 200 - sep 200), (200 - sep 200, 200)]
    ∧ (labelData 200).count 1 = 100 ∧ (labelData 200).count 2 = 100 :=
  have h := labelData_ranges ⟨fun _ _ _ => 0⟩ ⟨512, 512⟩ 200
  ⟨h.1, h.2.2.2.2.2.2.2.2.2.1, h.2.2.2.2.2.2.2.2.2.2.1⟩

end SvmNonlinear

namespace VideoWrite

/-- The meaning of `overlaps`: a common point. -/
theorem overlaps_iff (a b : Rect) :
    a.overlaps b = true ↔ ∃ px py : Int,
      (a.x ≤ px ∧ px < a.x + a.width ∧ a.y ≤ py ∧ py < a.y + a.height)
      ∧ (b.x ≤ px ∧ px < b.x + b.width ∧ b.y ≤ py ∧ py < b.y + b.height) := by
  simp only [Rect.overlaps, Bool.and_eq_true, decide_eq_true_eq, max_lt_iff, lt_min_iff]
  constructor
  · rintro ⟨⟨⟨h1, h2⟩, h3, h4⟩, ⟨h5, h6⟩, h7, h8⟩
    refine ⟨max a.x b.x, max a.y b.y, ⟨le_max_left _ _, ?_, le_max_left _ _, ?_⟩,
      ⟨le_max_right _ _, ?_, le_max_right _ _, ?_⟩⟩
    · exact max_lt h1 h2
    · exact max_lt h5 h6
    · exact max_lt h3 h4
    · exact max_lt h7 h8
  · rintro ⟨px, py, ⟨h1, h2, h3, h4⟩, h5, h6, h7, h8⟩
    refine ⟨⟨⟨?_, ?_⟩, ?_, ?_⟩, ⟨?_, ?_⟩, ?_, ?_⟩ <;> omega

theorem not_overlaps_of_clear (a b : Rect)
    (h : a.x + a.width ≤ b.x ∨ a.y + a.height ≤ b.y) : a.overlaps b = false := by
  rw [← Bool.not_eq_true, overlaps_iff]
  rintro ⟨px, py, ⟨h1, h2, h3, h4⟩, h5, h6, h7, h8⟩
  omega

/-- One call with `reset = 0`: a new row when `across` divides `count`, the
next place of the row otherwise. -/
theorem makeWindow_step (st : Layout) (name : String) (size : Size) :
    makeWindow st name size
      = if st.count % st.across = 0 then
          (⟨st.across, st.count + 1, size.width, st.moveY + st.maxY + 23, max 0 size.height⟩,
            [.window name, .moveWindow name 0 (st.moveY + st.maxY + 23)])
        else
          (⟨st.across, st.count + 1, st.moveX + size.width, st.moveY, max st.maxY size.height⟩,
            [.window name, .moveWindow name st.moveX st.moveY]) := by
  unfold makeWindow
  by_cases h : st.count % st.across = 0
  · simp [h]
  · simp [h]

/-- The call with `reset = n`, for `n` not 0: the first window of a first
row. -/
theorem makeWindow_reset (st : Layout) (name : String) (size : Size) (n : Int) (hn : n ≠ 0) :
    makeWindow st name size n
      = (⟨n, 1, size.width, 23, max 0 size.height⟩, [.window name, .moveWindow name 0 23]) := by
  unfold makeWindow
  simp [hn]

theorem movedTo_append (a b : List Effect) : movedTo (a ++ b) = movedTo a ++ movedTo b := by
  induction a with
  | nil => rfl
  | cons e rest ih => cases e <;> simp [movedTo, ih]

/-- The position of the first window of a sequence of calls, and the state the
following calls start from. -/
theorem movedTo_makeWindowCalls_cons (st : Layout) (name : String) (size : Size)
    (rest : List (String × Size)) :
    movedTo (makeWindowCalls st ((name, size) :: rest)).2
      = (if st.count % st.across = 0 then (0, st.moveY + st.maxY + 23)
          else (st.moveX, st.moveY))
        :: movedTo (makeWindowCalls (makeWindow st name size).1 rest).2 := by
  simp only [makeWindowCalls, movedTo_append]
  rw [makeWindow_step]
  by_cases h : st.count % st.across = 0
  · simp [h, movedTo]
  · simp [h, movedTo]

theorem drop_eq_cons_getElem {α : Type} (l : List α) (m : Nat) (a : α) (t : List α)
    (h : l.drop m = a :: t) : l[m]? = some a ∧ l.drop (m + 1) = t := by
  constructor
  · have := List.getElem?_drop l m 0
    rw [h] at this
    simpa using this.symm
  · rw [← List.drop_drop 1 m l, h]
    rfl

theorem take_succ_drop {α : Type} (l : List α) (a k : Nat) (x : α)
    (h : l[a + k]? = some x) :
    (l.drop a).take (k + 1) = (l.drop a).take k ++ [x] := by
  rw [List.take_succ, List.getElem?_drop, h]
  rfl

/-- The positions of the windows placed from a state that has a row begun:
the state holds the `k` windows already in row `r`. -/
theorem movedTo_makeWindowCalls (n : Nat) (sizes : List Size) (hn : 1 ≤ n) :
    ∀ (rest : List (String × Size)) (st : Layout) (r k : Nat),
      1 ≤ k → k ≤ n → st.across = (n : Int) → st.count = ((n * r + k : Nat) : Int) →
      st.moveY = rowY n sizes r →
      st.moveX = (((sizes.drop (n * r)).take k).map Size.width).sum →
      st.maxY = (((sizes.drop (n * r)).take k).map Size.height).foldl max 0 →
      sizes.drop (n * r + k) = rest.map Prod.snd →
      movedTo (makeWindowCalls st rest).2
        = (List.range' (n * r + k) rest.length).map
            (fun i => (widthsBefore n sizes i, rowY n sizes (i / n))) := by
  intro rest
  induction rest with
  | nil => intro st r k _ _ _ _ _ _ _ _; rfl
  | cons call rest ih =>
    intro st r k hk1 hkn hacross hcount hy hx hmax hdrop
    obtain ⟨name, s⟩ := call
    obtain ⟨hget, hdrop'⟩ := drop_eq_cons_getElem sizes (n * r + k) s (rest.map Prod.snd)
      (by simpa using hdrop)
    have hmod : st.count % st.across = (((n * r + k) % n : Nat) : Int) := by
      rw [hcount, hacross, Int.natCast_mod]
    rw [movedTo_makeWindowCalls_cons, List.length_cons, List.range'_succ, List.map_cons,
      makeWindow_step]
    rcases Nat.lt_or_ge k n with hlt | hge
    · -- the row is not full: the window goes next in the row
      have hkmod : (n * r + k) % n = k := by
        rw [Nat.mul_add_mod, Nat.mod_eq_of_lt hlt]
      have hkdiv : (n * r + k) / n = r := by
        rw [Nat.mul_add_div (by omega), Nat.div_eq_of_lt hlt, Nat.add_zero]
      have hne : ¬ st.count % st.across = 0 := by
        rw [hmod, hkmod]
        exact_mod_cast (by omega : k ≠ 0)
      have htake := take_succ_drop sizes (n * r) k s hget
      rw [if_neg hne, if_neg hne]
      congr 1
      · simp only [widthsBefore, hkmod, hkdiv, hx, hy]
      · rw [Nat.add_assoc]
        apply ih _ r (k + 1) (by omega) (by omega) (by simpa using hacross)
        · simp only [hcount]
          push_cast
          ring
        · exact hy
        · simp only [htake, List.map_append, List.sum_append, hx, List.map_cons, List.map_nil,
            List.sum_cons, List.sum_nil, add_zero]
        · simp only [htake, List.map_append, List.foldl_append, hmax, List.map_cons,
            List.map_nil, List.foldl_cons, List.foldl_nil]
        · rw [← Nat.add_assoc]
          exact hdrop'
    · -- the row is full: the window starts the next row
      have hk : k = n := by omega
      subst hk
      have hm : k * r + k = k * (r + 1) := by ring
      have hkmod : (k * r + k) % k = 0 := by
        rw [Nat.mul_add_mod, Nat.mod_self]
      have hkdiv : (k * r + k) / k = r + 1 := by
        rw [hm, Nat.mul_div_cancel_left _ (by omega)]
      have heq : st.count % st.across = 0 := by
        rw [hmod, hkmod]
        rfl
      rw [if_pos heq, if_pos heq]
      congr 1
      · simp only [widthsBefore, hkmod, hkdiv, rowY, rowHeight, hy, hmax, List.take_zero,
          List.map_nil, List.sum_nil]
      · have hdropm : sizes.drop (k * (r + 1)) = s :: rest.map Prod.snd := by
          rw [← hm]; simpa using hdrop
        rw [hm]
        apply ih _ (r + 1) 1 (by omega) (by omega) (by simpa using hacross)
        · simp only [hcount]
          push_cast
          ring
        · simp only [rowY, rowHeight, hy, hmax]
        · simp [hdropm]
        · simp [hdropm]
        · rw [show k * (r + 1) + 1 = k * r + k + 1 by ring]
          exact hdrop'

/-- After a call with `reset = n` the windows are at the positions of a layout
of `n` per row. -/
theorem layoutAfterReset_eq (st : Layout) (n : Nat) (hn : 1 ≤ n) (first : String × Size)
    (following : List (String × Size)) :
    layoutAfterReset st n first following
      = (List.range (following.length + 1)).map
          (fun i => (widthsBefore n ((first :: following).map Prod.snd) i,
            rowY n ((first :: following).map Prod.snd) (i / n))) := by
  obtain ⟨name, s⟩ := first
  have hn0 : (n : Int) ≠ 0 := by exact_mod_cast (by omega : n ≠ 0)
  have hrest := movedTo_makeWindowCalls n ((name, s) :: following |>.map Prod.snd) hn following
    ⟨n, 1, s.width, 23, max 0 s.height⟩ 0 1 (le_refl 1) hn rfl (by simp) rfl (by simp) (by simp)
    (by simp)
  simp only [Nat.mul_zero, Nat.zero_add] at hrest
  have hfirst : makeWindow st name s (n : Int)
      = (⟨n, 1, s.width, 23, max 0 s.height⟩, [.window name, .moveWindow name 0 23]) :=
    makeWindow_reset st name s n hn0
  show movedTo ((makeWindow st name s (n : Int)).2
      ++ (makeWindowCalls (makeWindow st name s (n : Int)).1 following).2) = _
  rw [hfirst]
  simp only [movedTo_append, hrest, List.range_eq_range', List.range'_succ, List.map_cons,
    Nat.zero_add]
  simp only [movedTo, List.cons_append, List.nil_append]
  congr 1
  simp [widthsBefore, rowY]

/-- Windows placed from a state stay clear of every rectangle the state is
clear of: one that ends left of `moveX` in the current row and is no higher
than `maxY`, or one that ends 23 above the current row. -/
theorem rects_clear :
    ∀ (calls : List (String × Size)) (st : Layout), 0 ≤ st.maxY →
      (∀ c ∈ calls, 0 ≤ c.2.width ∧ 0 ≤ c.2.height) →
      (rects (movedTo (makeWindowCalls st calls).2) (calls.map Prod.snd)).Pairwise
          (fun a b => a.overlaps b = false)
      ∧ ∀ R : Rect,
          ((R.y = st.moveY ∧ R.x + R.width ≤ st.moveX ∧ R.height ≤ st.maxY)
            ∨ R.y + R.height + 23 ≤ st.moveY) →
          ∀ N ∈ rects (movedTo (makeWindowCalls st calls).2) (calls.map Prod.snd),
            R.overlaps N = false := by
  intro calls
  induction calls with
  | nil =>
    intro st _ _
    simp [rects, makeWindowCalls, movedTo]
  | cons call rest ih =>
    intro st hmax hsize
    obtain ⟨name, s⟩ := call
    have hs : 0 ≤ s.width ∧ 0 ≤ s.height := hsize (name, s) (List.mem_cons_self _ _)
    have hrest : ∀ c ∈ rest, 0 ≤ c.2.width ∧ 0 ≤ c.2.height :=
      fun c hc => hsize c (List.mem_cons_of_mem _ hc)
    rw [movedTo_makeWindowCalls_cons, makeWindow_step]
    simp only [List.map_cons, rects, List.zipWith_cons_cons, List.pairwise_cons, List.mem_cons]
    by_cases h : st.count % st.across = 0
    · simp only [if_pos h]
      obtain ⟨ihp, ihc⟩ := ih ⟨st.across, st.count + 1, s.width, st.moveY + st.maxY + 23,
        max 0 s.height⟩ (by simp) hrest
      refine ⟨⟨?_, ihp⟩, ?_⟩
      · intro N hN
        exact ihc _ (Or.inl ⟨rfl, by simp, by simp⟩) N hN
      · intro R hR N hN
        rcases hN with rfl | hN
        · apply not_overlaps_of_clear
          simp only
          omega
        · apply ihc R _ N hN
          right
          simp only
          omega
    · simp only [if_neg h]
      obtain ⟨ihp, ihc⟩ := ih ⟨st.across, st.count + 1, st.moveX + s.width, st.moveY,
        max st.maxY s.height⟩ (by simp; omega) hrest
      refine ⟨⟨?_, ihp⟩, ?_⟩
      · intro N hN
        exact ihc _ (Or.inl ⟨rfl, by simp, by simp⟩) N hN
      · intro R hR N hN
        rcases hN with rfl | hN
        · apply not_overlaps_of_clear
          simp only
          omega
        · apply ihc R _ N hN
          simp only
          omega

/-- The maximum of non-negative heights, as `makeWindow` accumulates it from
0: no height of the list exceeds it, and it is one of them. -/
theorem foldl_max_heights (heights : List Int) (hpos : ∀ h ∈ heights, 0 ≤ h) :
    (∀ h ∈ heights, h ≤ heights.foldl max 0)
    ∧ (heights ≠ [] → heights.foldl max 0 ∈ heights) := by
  have key : ∀ (l : List Int) (a : Int), (∀ h ∈ l, 0 ≤ h) →
      a ≤ l.foldl max a ∧ (∀ h ∈ l, h ≤ l.foldl max a)
      ∧ (l.foldl max a = a ∨ l.foldl max a ∈ l) := by
    intro l
    induction l with
    | nil => intro a _; simp
    | cons x rest ih =>
      intro a hl
      obtain ⟨h1, h2, h3⟩ := ih (max a x) (fun h hh => hl h (List.mem_cons_of_mem _ hh))
      simp only [List.foldl_cons, List.mem_cons, forall_eq_or_imp]
      refine ⟨by omega, ⟨by omega, h2⟩, ?_⟩
      rcases h3 with h3 | h3
      · rcases le_total a x with hax | hax
        · right; left; rw [h3]; exact max_eq_right hax
        · left; rw [h3]; exact max_eq_left hax
      · right; right; exact h3
  obtain ⟨h1, h2, h3⟩ := key heights 0 hpos
  refine ⟨h2, fun hne => ?_⟩
  rcases h3 with h3 | h3
  · cases heights with
    | nil => exact absurd rfl hne
    | cons x rest =>
      have hx := h2 x (List.mem_cons_self _ _)
      have hx0 := hpos x (List.mem_cons_self _ _)
      have : x = 0 := by omega
      rw [h3, ← this]
      exact List.mem_cons_self _ _
  · exact h3

/-- Four windows of the same size after `reset = 2`, as `main` lays them
out. -/
theorem layoutAfterReset_four (st : Layout) (w h : Int) (hh : 0 ≤ h) :
    layoutAfterReset st 2 ("Source", ⟨w, h⟩)
        [("Blue", ⟨w, h⟩), ("Green", ⟨w, h⟩), ("Red", ⟨w, h⟩)]
      = [(0, 23), (w, 23), (0, h + 46), (w, h + 46)] := by
  have h2 := layoutAfterReset_eq st 2 (by omega) ("Source", ⟨w, h⟩)
    [("Blue", ⟨w, h⟩), ("Green", ⟨w, h⟩), ("Red", ⟨w, h⟩)]
  simp only [Nat.cast_ofNat] at h2
  rw [h2]
  have hmax : max (max 0 h) h = h := by omega
  simp [List.range, List.range.loop, widthsBefore, rowY, rowHeight, hmax]
  omega

/-- C13: after a call of `makeWindow` with `reset = n`, n at least 1, and any
calls with `reset = 0` that follow, all with non-negative sizes, the windows
are laid out n per row: window i is at x the sum of the widths of the windows
before it in its row and at the y of its row i / n, which is 23 for the first
row and for each new row the y of the previous row plus the maximum height of
the previous row plus 23; no two of the rectangles the windows cover overlap;
and four windows of size (w, h) after `reset = 2` are at (0,23), (w,23),
(0,h+46), (w,h+46). -/
theorem makeWindow_layout (st : Layout) (n : Nat) (hn : 1 ≤ n) (first : String × Size)
    (following : List (String × Size))
    (hsize : ∀ c ∈ first :: following, 0 ≤ c.2.width ∧ 0 ≤ c.2.height) :
    (layoutAfterReset st n first following).length = following.length + 1
    ∧ (∀ i, i < following.length + 1 →
        (layoutAfterReset st n first following)[i]?
          = some (widthsBefore n ((first :: following).map Prod.snd) i,
              rowY n ((first :: following).map Prod.snd) (i / n)))
    ∧ (∀ r, (((first :: following).map Prod.snd).drop (n * r)).take n ≠ [] →
        rowHeight n ((first :: following).map Prod.snd) r
            ∈ ((((first :: following).map Prod.snd).drop (n * r)).take n).map Size.height
        ∧ ∀ k ∈ ((((first :: following).map Prod.snd).drop (n * r)).take n).map Size.height,
            k ≤ rowHeight n ((first :: following).map Prod.snd) r)
    ∧ (rects (layoutAfterReset st n first following) ((first :: following).map Prod.snd)).Pairwise
        (fun a b => a.overlaps b = false)
    ∧ (∀ w h : Int, 0 ≤ w → 0 ≤ h →
        layoutAfterReset st 2 ("Source", ⟨w, h⟩)
            [("Blue", ⟨w, h⟩), ("Green", ⟨w, h⟩), ("Red", ⟨w, h⟩)]
          = [(0, 23), (w, 23), (0, h + 46), (w, h + 46)]) := by
  have heq := layoutAfterReset_eq st n hn first following
  refine ⟨by rw [heq]; simp, ?_, ?_, ?_, fun w h _ hh => layoutAfterReset_four st w h hh⟩
  · intro i hi
    rw [heq, List.getElem?_map, List.getElem?_range hi]
    rfl
  · intro r hne
    have hpos : ∀ k ∈ ((((first :: following).map Prod.snd).drop (n * r)).take n).map Size.height,
        0 ≤ k := by
      intro k hk
      obtain ⟨s, hs, rfl⟩ := List.mem_map.mp hk
      have hs' := List.mem_of_mem_drop (List.mem_of_mem_take hs)
      obtain ⟨c, hc, rfl⟩ := List.mem_map.mp hs'
      exact (hsize c hc).2
    obtain ⟨hle, hmem⟩ := foldl_max_heights _ hpos
    exact ⟨hmem (by simpa using hne), hle⟩
  · obtain ⟨name, s⟩ := first
    have hn0 : (n : Int) ≠ 0 := by exact_mod_cast (by omega : n ≠ 0)
    have hfirst : makeWindow st name s (n : Int)
        = (⟨n, 1, s.width, 23, max 0 s.height⟩, [.window name, .moveWindow name 0 23]) :=
      makeWindow_reset st name s n hn0
    have hs : 0 ≤ s.width ∧ 0 ≤ s.height := hsize (name, s) (List.mem_cons_self _ _)
    have hpos : layoutAfterReset st n (name, s) following
        = (0, 23) :: movedTo (makeWindowCalls ⟨n, 1, s.width, 23, max 0 s.height⟩ following).2 := by
      show movedTo ((makeWindow st name s (n : Int)).2
        ++ (makeWindowCalls (makeWindow st name s (n : Int)).1 following).2) = _
      rw [hfirst]
      simp only [movedTo_append]
      simp only [movedTo, List.cons_append, List.nil_append]
    obtain ⟨hp, hc⟩ := rects_clear following ⟨n, 1, s.width, 23, max 0 s.height⟩ (by simp)
      (fun c hc => hsize c (List.mem_cons_of_mem _ hc))
    rw [hpos]
    simp only [List.map_cons, rects, List.zipWith_cons_cons, List.pairwise_cons]
    refine ⟨fun N hN => hc _ (Or.inl ⟨rfl, by simp, by simp⟩) N hN, hp⟩

/-- Witness of C13: the four windows of `main`, of size 640 x 480, after
`reset = 2`. -/
theorem makeWindow_layout_witness :
    (1 : Nat) ≤ 2
    ∧ (∀ c ∈ [("Source", (⟨640, 480⟩ : Size)), ("Blue", ⟨640, 480⟩), ("Green", ⟨640, 480⟩),
        ("Red", ⟨640, 480⟩)], 0 ≤ c.2.width ∧ 0 ≤ c.2.height)
    ∧ (rects (layoutAfterReset Layout.init ((2 : Nat) : Int) ("Source", ⟨640, 480⟩)
          [("Blue", ⟨640, 480⟩), ("Green", ⟨640, 480⟩), ("Red", ⟨640, 480⟩)])
        ([("Source", (⟨640, 480⟩ : Size)), ("Blue", ⟨640, 480⟩), ("Green", ⟨640, 480⟩),
          ("Red", ⟨640, 480⟩)].map Prod.snd)).Pairwise (fun a b => a.overlaps b = false) :=
  ⟨by decide, by decide,
    (makeWindow_layout Layout.init 2 (by decide) ("Source", ⟨640, 480⟩)
      [("Blue", ⟨640, 480⟩), ("Green", ⟨640, 480⟩), ("Red", ⟨640, 480⟩)] (by decide)).2.2.2.1⟩

end VideoWrite

namespace SvmNonlinear

theorem mapM_ok {α β : Type} (f : α → Except String β) (g : α → β) (l : List α)
    (h : ∀ a ∈ l, f a = .ok (g a)) : l.mapM f = .ok (l.map g) := by
  induction l with
  | nil => rfl
  | cons a rest ih =>
    rw [List.mapM_cons, h a (List.mem_cons_self _ _),
      ih (fun b hb => h b (List.mem_cons_of_mem _ hb))]
    rfl

/-- The colour `drawPixel` writes for a response that is 1.0 or 2.0. -/
theorem drawPixel_ok (env : Env) (i j : Nat) (h : env.predict i j = 1 ∨ env.predict i j = 2) :
    drawPixel env i j = .ok ⟨j, i, if env.predict i j = 1 then green else blue⟩ := by
  have h1 : (1.0 : ℚ) = 1 := by norm_num
  have h2 : (2.0 : ℚ) = 2 := by norm_num
  unfold drawPixel
  simp only [h1, h2]
  rcases h with h | h
  · simp [h]
  · have hne : ¬ ((2 : ℚ) = 1) := by norm_num
    simp [h, hne]

/-- When every response is 1.0 or 2.0 the assertion is not reached and the
accesses are those of the two loops. -/
theorem drawRegions_ok (env : Env) (rows cols : Nat)
    (hpred : ∀ i j : Nat, i < rows → j < cols → env.predict i j = 1 ∨ env.predict i j = 2) :
    drawRegions env rows cols
      = .ok ((List.range rows).flatMap (fun i => (List.range cols).map
          (fun j => ⟨j, i, if env.predict i j = 1 then green else blue⟩))) := by
  unfold drawRegions
  rw [mapM_ok _ (fun i => (List.range cols).map
      (fun j => (⟨j, i, if env.predict i j = 1 then green else blue⟩ : PixelWrite)))]
  · simp only [bind, Except.bind, pure, Except.pure, List.flatMap, List.flatten]
  · intro i hi
    apply mapM_ok
    intro j hj
    exact drawPixel_ok env i j (hpred i j (List.mem_range.mp hi) (List.mem_range.mp hj))

theorem filter_range_eq (n c : Nat) (hc : c < n) :
    (List.range n).filter (fun j => decide (j = c)) = [c] := by
  induction n with
  | zero => omega
  | succ n ih =>
    rw [List.range_succ, List.filter_append]
    rcases Nat.lt_or_ge c n with hlt | hge
    · have hne : ¬ n = c := by omega
      simp [ih hlt, hne]
    · have heq : c = n := by omega
      subst heq
      have hnone : (List.range c).filter (fun j => decide (j = c)) = [] := by
        rw [List.filter_eq_nil_iff]
        intro j hj
        have := List.mem_range.mp hj
        simp
        omega
      simp [hnone]

theorem filter_flatMap {α β : Type} (p : β → Bool) (f : α → List β) (l : List α) :
    (l.flatMap f).filter p = l.flatMap (fun a => (f a).filter p) := by
  induction l with
  | nil => rfl
  | cons a rest ih => simp [List.flatMap_cons, List.filter_append, ih]

theorem flatMap_single {β : Type} (x : β) (c : Nat) (l : List Nat) :
    l.flatMap (fun i => if i = c then [x] else [])
      = (l.filter (fun i => decide (i = c))).map (fun _ => x) := by
  induction l with
  | nil => rfl
  | cons a rest ih =>
    by_cases h : a = c
    · simp [List.flatMap_cons, h, ih]
    · simp [List.flatMap_cons, h, ih]

/-- Among the accesses of the two loops, those to the pixel at row `r`, column
`c`: exactly one when `c` is below the bound of `i` and `r` below that of
`j`. -/
theorem filter_pixel (value : Nat → Nat → Vec3b) (rows cols r c : Nat)
    (hc : c < rows) (hr : r < cols) :
    ((List.range rows).flatMap (fun i => (List.range cols).map
        (fun j => (⟨j, i, value i j⟩ : PixelWrite)))).filter
        (fun w => decide (w.row = r ∧ w.col = c))
      = [⟨r, c, value c r⟩] := by
  rw [filter_flatMap]
  have hinner : ∀ i, ((List.range cols).map (fun j => (⟨j, i, value i j⟩ : PixelWrite))).filter
      (fun w => decide (w.row = r ∧ w.col = c))
      = if i = c then [⟨r, c, value c r⟩] else [] := by
    intro i
    rw [List.filter_map]
    by_cases h : i = c
    · subst h
      have hfun : ((fun w : PixelWrite => decide (w.row = r ∧ w.col = i))
          ∘ fun j => (⟨j, i, value i j⟩ : PixelWrite)) = fun j => decide (j = r) := by
        funext j
        simp
      rw [hfun, filter_range_eq cols r hr]
      simp
    · have hfun : ((fun w : PixelWrite => decide (w.row = r ∧ w.col = c))
          ∘ fun j => (⟨j, i, value i j⟩ : PixelWrite)) = fun _ => false := by
        funext j
        simp [h]
      rw [hfun]
      simp [h]
  simp only [hinner]
  rw [flatMap_single, filter_range_eq rows c hc]
  rfl

/-- Counterexample to C14: an image of no row and one column, and one of one
row and no column, have rows and cols different, and on each `drawRegions`
returns without any pixel access, so with none out of bounds. -/
theorem drawRegions_no_access :
    (0 : Nat) ≠ 1
    ∧ drawRegions ⟨fun _ _ => 1, []⟩ 0 1 = .ok []
    ∧ drawRegions ⟨fun _ _ => 1, []⟩ 1 0 = .ok [] :=
  ⟨by decide, rfl, rfl⟩

/-- The test of `main` on the responses is the hypothesis under which
`drawRegions` does not reach its assertion. -/
theorem responsesExpected_iff (env : Env) (rows cols : Nat) :
    responsesExpected env rows cols = true
      ↔ ∀ i j : Nat, i < rows → j < cols → env.predict i j = 1 ∨ env.predict i j = 2 := by
  simp only [responsesExpected, List.all_eq_true, List.mem_range, Bool.or_eq_true, beq_iff_eq]
  exact ⟨fun h i j hi hj => h i hi j hj, fun h i hi j hj => h i j hi hj⟩

/-- C14 (amended): when the response at every sample is 1.0 or 2.0 the
assertion is not reached; on a square image every pixel access is within the
bounds and every pixel is written exactly once, the pixel at row r, column c
green when the response at the sample (c, r) is 1.0 and blue when it is 2.0;
on an image with rows and cols different, and at least one row and one
column, some access `image(j, i)` is out of bounds. -/
theorem drawRegions_accesses (env : Env) (rows cols : Nat)
    (hpred : ∀ i j : Nat, i < rows → j < cols → env.predict i j = 1 ∨ env.predict i j = 2) :
    ∃ ws, drawRegions env rows cols = .ok ws
      ∧ (rows = cols →
          (∀ w ∈ ws, w.inBounds rows cols = true)
          ∧ ∀ r c, r < rows → c < cols →
              ws.filter (fun w => decide (w.row = r ∧ w.col = c))
                = [⟨r, c, if env.predict c r = 1 then green else blue⟩])
      ∧ (rows ≠ cols → 0 < rows → 0 < cols → ∃ w ∈ ws, w.inBounds rows cols = false) := by
  refine ⟨_, drawRegions_ok env rows cols hpred, ?_, ?_⟩
  · intro hsq
    subst hsq
    constructor
    · intro w hw
      obtain ⟨i, hi, hw⟩ := List.mem_flatMap.mp hw
      obtain ⟨j, hj, rfl⟩ := List.mem_map.mp hw
      simp [PixelWrite.inBounds, List.mem_range.mp hi, List.mem_range.mp hj]
    · intro r c hr hc
      exact filter_pixel (fun i j => if env.predict i j = 1 then green else blue) rows rows r c
        hc hr
  · intro hne hrows hcols
    rcases Nat.lt_or_ge rows cols with hlt | hge
    · refine ⟨⟨rows, 0, if env.predict (0 : Nat) rows = 1 then green else blue⟩, ?_, ?_⟩
      · exact List.mem_flatMap.mpr ⟨0, List.mem_range.mpr hrows,
          List.mem_map.mpr ⟨rows, List.mem_range.mpr hlt, rfl⟩⟩
      · simp [PixelWrite.inBounds]
    · have hgt : cols < rows := by omega
      refine ⟨⟨0, cols, if env.predict cols (0 : Nat) = 1 then green else blue⟩, ?_, ?_⟩
      · exact List.mem_flatMap.mpr ⟨cols, List.mem_range.mpr hgt,
          List.mem_map.mpr ⟨0, List.mem_range.mpr hcols, rfl⟩⟩
      · simp [PixelWrite.inBounds]

/-- Witness of C14: a machine that answers 1.0 everywhere, on an image of 2
rows and 3 columns. -/
theorem drawRegions_accesses_witness :
    (∀ i j : Nat, i < 2 → j < 3 →
      (⟨fun _ _ => 1, []⟩ : Env).predict i j = 1 ∨ (⟨fun _ _ => 1, []⟩ : Env).predict i j = 2)
    ∧ ∃ ws, drawRegions ⟨fun _ _ => 1, []⟩ 2 3 = .ok ws
        ∧ ∃ w ∈ ws, w.inBounds 2 3 = false :=
  ⟨fun _ _ _ _ => Or.inl rfl,
    match drawRegions_accesses ⟨fun _ _ => 1, []⟩ 2 3 (fun _ _ _ _ => Or.inl rfl) with
    | ⟨ws, hok, _, hout⟩ => ⟨ws, hok, hout (by decide) (by decide) (by decide)⟩⟩

end SvmNonlinear

namespace VideoWrite

theorem makeWindows_succ (st : Layout) (i : Nat) (calls : List (String × Size)) :
    makeWindows st (i + 1) calls = makeWindowCalls st calls := by
  induction calls generalizing st i with
  | nil => rfl
  | cons call rest ih =>
    obtain ⟨name, size⟩ := call
    simp only [makeWindows, makeWindowCalls, ih]
    simp

/-- The loop of `main` over the videos is a call with `reset = 2` followed by
calls with `reset = 0`. -/
theorem movedTo_makeWindows (st : Layout) (first : String × Size)
    (following : List (String × Size)) :
    movedTo (makeWindows st 0 (first :: following)).2 = layoutAfterReset st 2 first following := by
  obtain ⟨name, size⟩ := first
  simp only [makeWindows, makeWindows_succ, layoutAfterReset]
  simp

end VideoWrite
